import Mathlib

/-! Inventory management on SQLite: the stock and sale-total engine.

A shallow embedding of `src/main.cpp`: the embedded schema of `init_schema`
(tables, CHECK constraints, foreign keys with `PRAGMA foreign_keys = ON`, and
the six triggers) and the C++ functions that issue statements against it
(`add_supplier`, `add_product`, `receive_stock`, `update_price`, `make_sale`).

Modelling conventions.

* A table is the list of its rows in rowid order; the database is a record of
  the five tables plus the `sqlite_sequence` counter of each AUTOINCREMENT key.
* A statement is a function `Db → Except SqlError Db`. SQLite runs every
  statement of this program in autocommit mode with the default ABORT conflict
  policy, so a statement that fails leaves the database as it was: `step`.
* Numbers follow SQLite. An `INTEGER` is an `Int` in the signed 64-bit range.
  A `REAL` is an IEEE double, represented by its value in `ℚ`; every product
  and sum of REALs is rounded to the nearest double, ties to even (`fl`).
  Integer `+` and `-` that leave the 64-bit range are carried out on doubles
  (`sql_add`, `sql_sub`), and the REAL that results is what the `stock` column
  then holds: it is an integer-valued double of magnitude `2^63` or more and
  is represented by that integer, so a `stock` outside the 64-bit range
  stands for a REAL (a REAL inside the range is turned back into an INTEGER
  by the column's affinity; the REAL `-2^63`, which no stock can be under
  `CHECK (stock >= 0)`, is not told apart from the INTEGER). Overflow of a
  double to infinity is not represented.
* The aggregate `SUM` over REAL rows is code of the SQLite library, and its
  summation algorithm differs between library versions; it is a parameter
  `agg` of everything that evaluates the total triggers. `naive_sum` is plain
  left-to-right double accumulation.
* The C++ `int` arguments (`productId`, `qty`) and `double` arguments are
  taken from all of `Int` and `ℚ`, which contain every value the program can
  bind.
* The columns `purchased_at` and `created_at` (wall-clock defaults) are left
  out: no statement modelled here reads them.
-/

namespace Inventory

/-! ## Data model (lines 39-74 of `main.cpp`) -/

/-- Row of `suppliers`. -/
structure Supplier where
  id : Int
  name : String
  phone : Option String
  email : Option String
  deriving DecidableEq, Repr

/-- Row of `products`. -/
structure Product where
  id : Int
  name : String
  supplier_id : Option Int
  unit_price : ℚ
  stock : Int
  deriving DecidableEq, Repr

/-- Row of `purchases`. -/
structure Purchase where
  id : Int
  product_id : Int
  qty : Int
  cost_price : ℚ
  deriving DecidableEq, Repr

/-- Row of `sales`. -/
structure Sale where
  id : Int
  customer : Option String
  total : ℚ
  deriving DecidableEq, Repr

/-- Row of `sale_items`. -/
structure SaleItem where
  id : Int
  sale_id : Int
  product_id : Int
  qty : Int
  price : ℚ
  deriving DecidableEq, Repr

/-- The database: the five tables and the `sqlite_sequence` value of each. -/
structure Db where
  suppliers : List Supplier
  products : List Product
  purchases : List Purchase
  sales : List Sale
  sale_items : List SaleItem
  seq_suppliers : Int
  seq_products : Int
  seq_purchases : Int
  seq_sales : Int
  seq_sale_items : Int
  deriving DecidableEq, Repr

/-- The database right after `init_schema` on a fresh file. -/
def Db.empty : Db :=
  { suppliers := [], products := [], purchases := [], sales := [], sale_items := [],
    seq_suppliers := 0, seq_products := 0, seq_purchases := 0, seq_sales := 0,
    seq_sale_items := 0 }

/-- The ways a statement of this program can abort. -/
inductive SqlError where
  /-- Raised by `RAISE(ABORT, msg)` in a trigger. -/
  | raise (msg : String)
  /-- A CHECK constraint failed; the argument is the constraint. -/
  | check (constraint : String)
  /-- A UNIQUE constraint failed; the argument is the column. -/
  | unique (column : String)
  /-- A FOREIGN KEY constraint failed. -/
  | foreign_key
  deriving DecidableEq, Repr

/-- The message raised by `trg_sale_items_before_insert` (line 85). -/
def insufficient_stock : SqlError := .raise "Insufficient stock for this product"

/-- One `sqlite3_step` of a writing statement in autocommit mode: on
`SQLITE_DONE` the new database is kept, on an error the statement is rolled
back and the error is reported. -/
def step (db : Db) (stmt : Db → Except SqlError Db) : Db × Option SqlError :=
  match stmt db with
  | .ok db1 => (db1, none)
  | .error e => (db, some e)

/-- Largest element of a list of rowids (0 for the empty table). -/
def max_rowid : List Int → Int
  | [] => 0
  | i :: is => max i (max_rowid is)

/-- AUTOINCREMENT: one more than the larger of the recorded sequence value and
the largest rowid in the table. -/
def next_rowid (seq : Int) (ids : List Int) : Int :=
  max seq (max_rowid ids) + 1

/-! ## Numbers -/

/-- Largest 64-bit signed integer. -/
def INT64_MAX : Int := 9223372036854775807

/-- Smallest 64-bit signed integer. -/
def INT64_MIN : Int := -9223372036854775808

/-- The value fits SQLite's INTEGER storage class. -/
def is_int64 (x : Int) : Prop := INT64_MIN ≤ x ∧ x ≤ INT64_MAX

instance is_int64_decidable (x : Int) : Decidable (is_int64 x) := by
  unfold is_int64
  infer_instance

/-- Binary logarithm, rounded down, by halving at most `fuel` times. -/
def log2_aux : Nat → Nat → Nat
  | 0, _ => 0
  | fuel + 1, n => if n < 2 then 0 else log2_aux fuel (n / 2) + 1

/-- Binary logarithm of a natural number, rounded down (0 for 0). -/
def ilog2 (n : Nat) : Nat := log2_aux n n

/-- Round the quotient `q` with remainder `r` of a division by `d` to the
nearest integer, ties to the even one. -/
def round_half_even (q r d : Nat) : Nat :=
  if 2 * r < d then q else if d < 2 * r then q + 1 else if q % 2 = 0 then q else q + 1

/-- Conversion `(double)x` of an integer: the nearest double, ties to even.
Below `2^53` in magnitude it is exact; above, the result is again an
integer. -/
def to_double (x : Int) : Int :=
  let m := x.natAbs
  if m < 2 ^ 53 then x
  else
    let e := ilog2 m - 52
    Int.sign x * ((round_half_even (m / 2 ^ e) (m % 2 ^ e) (2 ^ e) * 2 ^ e : Nat) : Int)

/-- SQL `a + b` on two numbers of the `stock` kind: integer addition when
both are INTEGERs and the sum fits 64 bits, else addition of doubles. -/
def sql_add (a b : Int) : Int :=
  if is_int64 a ∧ is_int64 b ∧ is_int64 (a + b) then a + b
  else to_double (to_double a + to_double b)

/-- SQL `a - b`, as `sql_add`. -/
def sql_sub (a b : Int) : Int :=
  if is_int64 a ∧ is_int64 b ∧ is_int64 (a - b) then a - b
  else to_double (to_double a - to_double b)

/-- The power `2^e` for an integer exponent. -/
def pow2 (e : Int) : ℚ :=
  if 0 ≤ e then ((2 ^ e.toNat : Nat) : ℚ) else 1 / ((2 ^ (-e).toNat : Nat) : ℚ)

/-- The exponent `k` with `2^k <= |x| < 2^(k+1)`, for `x` other than 0. -/
def floor_log2 (x : ℚ) : Int :=
  let k : Int := (ilog2 x.num.natAbs : Int) - (ilog2 x.den : Int)
  if pow2 k ≤ |x| then k else k - 1

/-- Rounding of a real number to the nearest IEEE double, ties to even: 53
significant bits, and a smallest quantum of `2^(-1074)` for subnormals. -/
def fl (x : ℚ) : ℚ :=
  if x = 0 then 0
  else
    let e : Int := max (floor_log2 x - 52) (-1074)
    let y : ℚ := |x| / pow2 e
    (if x < 0 then -1 else 1) *
      (round_half_even (y.num.natAbs / y.den) (y.num.natAbs % y.den) y.den : ℚ) * pow2 e

/-- SQL `qty * price` for an INTEGER `qty` and a REAL `price`: the product of
two doubles. -/
def real_mul (qty : Int) (price : ℚ) : ℚ :=
  fl ((to_double qty : ℚ) * price)

/-- Plain accumulation `sum += x` over doubles, starting from 0.0. -/
def naive_sum (xs : List ℚ) : ℚ :=
  xs.foldl (fun a x => fl (a + x)) 0

/-- The double nearest to 0.1, which is what the input `0.1` is read as. -/
def one_tenth : ℚ := 3602879701896397 / 36028797018963968

/-- Aggregate `SUM(...)` of SQL over REAL rows: NULL over no rows, else what
the library's summation `agg` makes of the rows. -/
def sql_sum (agg : List ℚ → ℚ) (xs : List ℚ) : Option ℚ :=
  match xs with
  | [] => none
  | _ :: _ => some (agg xs)

/-- Expression `COALESCE((SELECT SUM(qty * price) FROM sale_items WHERE sale_id = sid), 0)`
(lines 102 and 109). -/
def sum_qty_price (agg : List ℚ → ℚ) (items : List SaleItem) (sid : Int) : ℚ :=
  (sql_sum agg ((items.filter (fun i => i.sale_id = sid)).map
    (fun i => real_mul i.qty i.price))).getD 0

/-- Statement `UPDATE products SET stock = f(stock) WHERE id = pid`, with the
CHECK `stock >= 0` of the table evaluated on every updated row
(lines 49, 78, 91, 96). -/
def update_stock (ps : List Product) (pid : Int) (f : Int → Int) :
    Except SqlError (List Product) :=
  if ps.all (fun p => decide (p.id = pid → 0 ≤ f p.stock)) then
    .ok (ps.map (fun p => if p.id = pid then { p with stock := f p.stock } else p))
  else
    .error (.check "stock >= 0")

/-- Statement `UPDATE sales SET total = COALESCE((SELECT SUM(qty * price) ...), 0)
WHERE id = sid` (lines 101-103, 108-110). -/
def update_total (agg : List ℚ → ℚ) (db : Db) (sid : Int) : Db :=
  { db with sales := db.sales.map (fun s =>
      if s.id = sid then { s with total := sum_qty_price agg db.sale_items sid } else s) }

/-! ## Triggers (lines 75-111) -/

/-- Trigger `trg_purchase_after_insert`: `stock = stock + NEW.qty`. -/
def trg_purchase_after_insert (db : Db) (new : Purchase) : Except SqlError Db :=
  match update_stock db.products new.product_id (fun st => sql_add st new.qty) with
  | .ok ps => .ok { db with products := ps }
  | .error e => .error e

/-- Trigger `trg_sale_items_before_insert`: the scalar subquery yields the
stock of the product, or NULL when there is no such product; `NULL < qty` is
NULL, so the CASE raises only for an existing product with `stock < qty`. -/
def trg_sale_items_before_insert (db : Db) (new : SaleItem) : Except SqlError Unit :=
  match db.products.find? (fun p => p.id = new.product_id) with
  | some p => if p.stock < new.qty then .error insufficient_stock else .ok ()
  | none => .ok ()

/-- Trigger `trg_sale_items_after_insert`: `stock = stock - NEW.qty`. -/
def trg_sale_items_after_insert (db : Db) (new : SaleItem) : Except SqlError Db :=
  match update_stock db.products new.product_id (fun st => sql_sub st new.qty) with
  | .ok ps => .ok { db with products := ps }
  | .error e => .error e

/-- Trigger `trg_sale_items_after_delete`: `stock = stock + OLD.qty`. -/
def trg_sale_items_after_delete (db : Db) (old : SaleItem) : Except SqlError Db :=
  match update_stock db.products old.product_id (fun st => sql_add st old.qty) with
  | .ok ps => .ok { db with products := ps }
  | .error e => .error e

/-- Trigger `trg_sale_items_total_after_insert`. -/
def trg_sale_items_total_after_insert (agg : List ℚ → ℚ) (db : Db) (new : SaleItem) : Db :=
  update_total agg db new.sale_id

/-- Trigger `trg_sale_items_total_after_delete`. -/
def trg_sale_items_total_after_delete (agg : List ℚ → ℚ) (db : Db) (old : SaleItem) : Db :=
  update_total agg db old.sale_id

/-! ## Statements -/

/-- Statement `INSERT INTO suppliers(name, phone, email) VALUES(?,?,?)` (line 129). -/
def insert_supplier (name : String) (phone email : Option String) (db : Db) :
    Except SqlError Db :=
  if db.suppliers.any (fun s => s.name = name) then .error (.unique "suppliers.name")
  else
    let id := next_rowid db.seq_suppliers (db.suppliers.map (fun s => s.id))
    .ok { db with
      suppliers := db.suppliers ++ [{ id := id, name := name, phone := phone, email := email }],
      seq_suppliers := id }

/-- Statement `INSERT INTO products(name, supplier_id, unit_price) VALUES(?,?,?)`
(line 169); `stock` takes its default 0. -/
def insert_product (name : String) (supplier_id : Option Int) (unit_price : ℚ) (db : Db) :
    Except SqlError Db :=
  if ¬ (0 ≤ unit_price) then .error (.check "unit_price >= 0")
  else if db.products.any (fun p => p.name = name) then .error (.unique "products.name")
  else if supplier_id.any (fun sid => ! db.suppliers.any (fun s => s.id = sid)) then
    .error .foreign_key
  else
    let id := next_rowid db.seq_products (db.products.map (fun p => p.id))
    .ok { db with
      products := db.products ++
        [{ id := id, name := name, supplier_id := supplier_id,
           unit_price := unit_price, stock := 0 }],
      seq_products := id }

/-- Statement `INSERT INTO purchases(product_id, qty, cost_price) VALUES(?,?,?)`
(line 193): CHECKs, row insert, AFTER INSERT trigger, then the foreign key on
`product_id`, which aborts the statement when the product row is missing. -/
def insert_purchase (product_id qty : Int) (cost_price : ℚ) (db : Db) :
    Except SqlError Db :=
  if ¬ (0 < qty) then .error (.check "qty > 0")
  else if ¬ (0 ≤ cost_price) then .error (.check "cost_price >= 0")
  else
    let new : Purchase :=
      { id := next_rowid db.seq_purchases (db.purchases.map (fun r => r.id)),
        product_id := product_id, qty := qty, cost_price := cost_price }
    let db1 := { db with purchases := db.purchases ++ [new], seq_purchases := new.id }
    match trg_purchase_after_insert db1 new with
    | .error e => .error e
    | .ok db2 =>
      if db2.products.any (fun p => p.id = product_id) then .ok db2
      else .error .foreign_key

/-- Statement `INSERT INTO sales(customer) VALUES(?)` (line 307); `total` takes its
default 0. -/
def insert_sale (customer : Option String) (db : Db) : Except SqlError Db :=
  let id := next_rowid db.seq_sales (db.sales.map (fun s => s.id))
  .ok { db with
    sales := db.sales ++ [{ id := id, customer := customer, total := 0 }],
    seq_sales := id }

/-- Statement `INSERT INTO sale_items(sale_id, product_id, qty, price) VALUES(?,?,?,?)`
(line 353): BEFORE INSERT trigger, CHECKs, row insert, the two AFTER INSERT
triggers, then the foreign keys on `sale_id` and `product_id`. -/
def insert_sale_item (agg : List ℚ → ℚ) (sale_id product_id qty : Int) (price : ℚ)
    (db : Db) : Except SqlError Db :=
  let new : SaleItem :=
    { id := next_rowid db.seq_sale_items (db.sale_items.map (fun r => r.id)),
      sale_id := sale_id, product_id := product_id, qty := qty, price := price }
  match trg_sale_items_before_insert db new with
  | .error e => .error e
  | .ok _ =>
    if ¬ (0 < qty) then .error (.check "qty > 0")
    else if ¬ (0 ≤ price) then .error (.check "price >= 0")
    else
      let db1 := { db with sale_items := db.sale_items ++ [new], seq_sale_items := new.id }
      match trg_sale_items_after_insert db1 new with
      | .error e => .error e
      | .ok db2 =>
        let db3 := trg_sale_items_total_after_insert agg db2 new
        if db3.sales.any (fun s => s.id = sale_id) ∧
            db3.products.any (fun p => p.id = product_id) then .ok db3
        else .error .foreign_key

/-- Statement `UPDATE products SET unit_price = ? WHERE id = ?` (line 260), with the
CHECK `unit_price >= 0` on every updated row. -/
def update_unit_price (product_id : Int) (new_price : ℚ) (db : Db) : Except SqlError Db :=
  if db.products.any (fun p => p.id = product_id) ∧ ¬ (0 ≤ new_price) then
    .error (.check "unit_price >= 0")
  else
    .ok { db with products := db.products.map (fun p =>
      if p.id = product_id then { p with unit_price := new_price } else p) }

/-- Modelled from the spec: the statement behind `RemoveItem(saleId, itemId)`,
`DELETE FROM sale_items WHERE id = ? AND sale_id = ?`; the program issues no
DELETE of its own. Its effects are those of the source: the row goes and the
two AFTER DELETE triggers of the schema (lines 93-97, 105-111) fire for it. -/
def delete_sale_item (agg : List ℚ → ℚ) (sale_id item_id : Int) (db : Db) :
    Except SqlError Db :=
  match db.sale_items.find? (fun i => i.id = item_id ∧ i.sale_id = sale_id) with
  | none => .ok db
  | some old =>
    let db1 := { db with
      sale_items := db.sale_items.eraseP (fun i => i.id = item_id ∧ i.sale_id = sale_id) }
    match trg_sale_items_after_delete db1 old with
    | .error e => .error e
    | .ok db2 => .ok (trg_sale_items_total_after_delete agg db2 old)

/-! ## The C++ functions -/

/-- An empty input line is bound as NULL (lines 131-132, 308). -/
def text_or_null (s : String) : Option String :=
  if s.isEmpty then none else some s

/-- Function `add_supplier` (lines 119-138). -/
def add_supplier (db : Db) (name phone email : String) : Db × Option SqlError :=
  step db (insert_supplier name (text_or_null phone) (text_or_null email))

/-- Function `get_supplier_id` (lines 140-152). -/
def get_supplier_id (db : Db) (name : String) : Option Int :=
  (db.suppliers.find? (fun s => s.name = name)).map (fun s => s.id)

/-- Function `add_product` (lines 154-179). -/
def add_product (db : Db) (name supplierName : String) (price : ℚ) : Db × Option SqlError :=
  let supId := if supplierName.isEmpty then none else get_supplier_id db supplierName
  step db (insert_product name supId price)

/-- Function `receive_stock` (lines 181-201). -/
def receive_stock (db : Db) (productId qty : Int) (costPrice : ℚ) : Db × Option SqlError :=
  step db (insert_purchase productId qty costPrice)

/-- Function `update_price` (lines 250-267); the flag is true for
"Price updated.", that is `SQLITE_DONE` with `sqlite3_changes > 0`. -/
def update_price (db : Db) (productId : Int) (newPrice : ℚ) : Db × Bool :=
  match step db (update_unit_price productId newPrice) with
  | (db1, none) => (db1, db.products.any (fun p => p.id = productId))
  | (db1, some _) => (db1, false)

/-- The sale-creation part of `make_sale` (lines 305-318): the new database
and the `saleId` read from `sqlite3_last_insert_rowid`. -/
def create_sale (db : Db) (customer : String) : Db × Int :=
  ((step db (insert_sale (text_or_null customer))).1,
    next_rowid db.seq_sales (db.sales.map (fun s => s.id)))

/-- What one round of the item loop of `make_sale` reports. -/
inductive ItemOutcome where
  /-- Message "Item added." -/
  | added
  /-- Message "Product not found." (line 344). -/
  | product_not_found
  /-- Message "Failed to add item: " followed by the SQLite message (line 363). -/
  | failed (e : SqlError)
  deriving DecidableEq, Repr

/-- One round of the item loop of `make_sale` (lines 327-365): a price `<= 0`
is replaced by the product's `unit_price`, or the round ends with
"Product not found."; then the sale item is inserted. -/
def add_item (agg : List ℚ → ℚ) (db : Db) (saleId productId qty : Int) (price : ℚ) :
    Db × ItemOutcome :=
  let resolved : Option ℚ :=
    if price ≤ 0 then
      (db.products.find? (fun p => p.id = productId)).map (fun p => p.unit_price)
    else some price
  match resolved with
  | none => (db, .product_not_found)
  | some pr =>
    match step db (insert_sale_item agg saleId productId qty pr) with
    | (db1, none) => (db1, .added)
    | (db1, some e) => (db1, .failed e)

/-- What `RemoveItem` reports. -/
inductive RemoveOutcome where
  /-- The item is gone. -/
  | removed
  /-- No item with this id belongs to the sale (`NotFound`). -/
  | not_found
  /-- The DELETE was aborted and rolled back; the SQLite error. -/
  | failed (e : SqlError)
  deriving DecidableEq, Repr

/-- Modelled from the spec: `RemoveItem(saleId, itemId)`. A missing item is
`NotFound`, detected before any mutation; else one step of
`delete_sale_item`. -/
def remove_item (agg : List ℚ → ℚ) (db : Db) (saleId itemId : Int) : Db × RemoveOutcome :=
  match db.sale_items.find? (fun i => i.id = itemId ∧ i.sale_id = saleId) with
  | none => (db, .not_found)
  | some _ =>
    match step db (delete_sale_item agg saleId itemId) with
    | (db1, none) => (db1, .removed)
    | (db1, some e) => (db1, .failed e)

/-- One line of the bill (the columns of `billSql`, lines 375-378). -/
structure BillLine where
  id : Int
  name : String
  qty : Int
  price : ℚ
  line_total : ℚ
  deriving DecidableEq, Repr

/-- The rows of `billSql`: sale items of the sale, inner-joined to products on
`p.id = si.product_id`. -/
def bill_rows (db : Db) (saleId : Int) : List BillLine :=
  (db.sale_items.filter (fun si => si.sale_id = saleId)).flatMap (fun si =>
    (db.products.filter (fun p => p.id = si.product_id)).map (fun p =>
      { id := si.id, name := p.name, qty := si.qty, price := si.price,
        line_total := real_mul si.qty si.price }))

/-- The running `total += line` of the bill loop (lines 382-393), an
addition of doubles starting from 0.0. -/
def bill_accumulated_total (db : Db) (saleId : Int) : ℚ :=
  (bill_rows db saleId).foldl (fun total r => fl (total + r.line_total)) 0

/-- Query `SELECT total FROM sales WHERE id = ?` (line 398). -/
def authoritative_total (db : Db) (saleId : Int) : Option ℚ :=
  (db.sales.find? (fun s => s.id = saleId)).map (fun s => s.total)

/-- The TOTAL printed by `make_sale` (lines 396-406): the stored total when
the sale row is found, else the accumulated one. -/
def bill_total (db : Db) (saleId : Int) : ℚ :=
  match authoritative_total db saleId with
  | some t => t
  | none => bill_accumulated_total db saleId

/-- One answer "y" to "Add item?" with the three values read after it. -/
structure ItemRequest where
  productId : Int
  qty : Int
  price : ℚ
  deriving DecidableEq, Repr

/-- The item loop of `make_sale` over the requests typed in. -/
def add_items (agg : List ℚ → ℚ) (db : Db) (saleId : Int) : List ItemRequest → Db
  | [] => db
  | r :: rs => add_items agg (add_item agg db saleId r.productId r.qty r.price).1 saleId rs

/-- Function `make_sale` (lines 300-408): create the sale, run the item loop,
print the bill. The result holds the database, the bill lines and the TOTAL. -/
def make_sale (agg : List ℚ → ℚ) (db : Db) (customer : String) (items : List ItemRequest) :
    Db × List BillLine × ℚ :=
  let created := create_sale db customer
  let db1 := add_items agg created.1 created.2 items
  (db1, bill_rows db1 created.2, bill_total db1 created.2)

/-! ## Operation sequences -/

/-- The operations on the store. -/
inductive Op where
  | add_supplier (name phone email : String)
  | add_product (name supplierName : String) (price : ℚ)
  | receive_stock (productId qty : Int) (costPrice : ℚ)
  | create_sale (customer : String)
  | add_item (saleId productId qty : Int) (price : ℚ)
  | remove_item (saleId itemId : Int)
  | update_price (productId : Int) (newPrice : ℚ)
  deriving DecidableEq, Repr

/-- The database after one operation, whether it succeeded or was rejected. -/
def Op.apply (agg : List ℚ → ℚ) (db : Db) : Op → Db
  | .add_supplier n p e => (Inventory.add_supplier db n p e).1
  | .add_product n s pr => (Inventory.add_product db n s pr).1
  | .receive_stock p q c => (Inventory.receive_stock db p q c).1
  | .create_sale c => (Inventory.create_sale db c).1
  | .add_item s p q pr => (Inventory.add_item agg db s p q pr).1
  | .remove_item s i => (Inventory.remove_item agg db s i).1
  | .update_price p pr => (Inventory.update_price db p pr).1

/-- The database after a sequence of operations. -/
def run (agg : List ℚ → ℚ) (db : Db) (ops : List Op) : Db :=
  ops.foldl (Op.apply agg) db

/-- Query `SELECT stock FROM products WHERE id = ?`. -/
def stock_of (db : Db) (pid : Int) : Option Int :=
  (db.products.find? (fun p => p.id = pid)).map (fun p => p.stock)

/-! ## States and invariants -/

/-- The constraints of the schema that the results below rest on: the primary
key of `products`, the CHECKs of `products` and `sale_items`, and the two
foreign keys of `sale_items`. -/
structure Db.Valid (db : Db) : Prop where
  products_pk : (db.products.map (fun p => p.id)).Nodup
  products_check : ∀ p ∈ db.products, 0 ≤ p.unit_price ∧ 0 ≤ p.stock
  sale_items_check : ∀ i ∈ db.sale_items, 0 < i.qty ∧ 0 ≤ i.price
  sale_items_fk_product : ∀ i ∈ db.sale_items, ∃ p ∈ db.products, p.id = i.product_id
  sale_items_fk_sale : ∀ i ∈ db.sale_items, ∃ s ∈ db.sales, s.id = i.sale_id

/-- The items that belong to a sale. -/
def items_of (db : Db) (sid : Int) : List SaleItem :=
  db.sale_items.filter (fun i => i.sale_id = sid)

/-- The exact sum of `qty * price` over a list of items; 0 for no items. -/
def items_sum (items : List SaleItem) : ℚ :=
  (items.map (fun i => (i.qty : ℚ) * i.price)).sum

/-- What SQLite makes of the sum of `qty * price` over a list of items: 0 for
no items, else the library's `SUM` of the products, each a double. -/
def sqlite_total (agg : List ℚ → ℚ) (items : List SaleItem) : ℚ :=
  match items with
  | [] => 0
  | _ :: _ => agg (items.map (fun i => real_mul i.qty i.price))

/-- Total consistency as the triggers keep it: every sale's stored total is
SQLite's sum over the items of the sale. -/
def Db.TotalsConsistent (agg : List ℚ → ℚ) (db : Db) : Prop :=
  ∀ s ∈ db.sales, s.total = sqlite_total agg (items_of db s.id)

/-- The columns of a product other than `stock`. -/
def Product.unstocked (p : Product) : Int × String × Option Int × ℚ :=
  (p.id, p.name, p.supplier_id, p.unit_price)

/-! ## The stores of the scenarios -/

/-- Product P (price 10.00, stock 0) alone in the store. -/
def store_p : Db :=
  { Db.empty with
    products := [{ id := 1, name := "P", supplier_id := none, unit_price := 10, stock := 0 }],
    seq_products := 1 }

/-- The store after `ReceiveStock(P, 5, 6.00)` and `CreateSale("Alice")`. -/
def store_a : Db :=
  { store_p with
    products := [{ id := 1, name := "P", supplier_id := none, unit_price := 10, stock := 5 }],
    purchases := [{ id := 1, product_id := 1, qty := 5, cost_price := 6 }],
    sales := [{ id := 1, customer := some "Alice", total := 0 }],
    seq_purchases := 1, seq_sales := 1 }

/-- The store after `AddItem(sale, P, 3)` with no override. -/
def store_b : Db :=
  { store_a with
    products := [{ id := 1, name := "P", supplier_id := none, unit_price := 10, stock := 2 }],
    sales := [{ id := 1, customer := some "Alice", total := 30 }],
    sale_items := [{ id := 1, sale_id := 1, product_id := 1, qty := 3, price := 10 }],
    seq_sale_items := 1 }

/-- Product P holding 2^63 - 2 units, an INTEGER stock one below the largest
64-bit value. -/
def store_big : Db :=
  { store_p with
    products := [{ id := 1, name := "P", supplier_id := none, unit_price := 10,
                   stock := 9223372036854775806 }] }

/-- Product P after one more delivery on `store_big`: its stock is the REAL
9.223372036854776e18, that is 2^63; and an empty sale. -/
def store_real : Db :=
  { store_p with
    products := [{ id := 1, name := "P", supplier_id := none, unit_price := 10,
                   stock := 9223372036854775808 }],
    sales := [{ id := 1, customer := some "Alice", total := 0 }],
    seq_sales := 1 }

/-! ## Basic facts about the statements -/

theorem step_fst (db : Db) (f : Db → Except SqlError Db) :
    (step db f).1 = db ∨ ∃ db1, f db = .ok db1 ∧ (step db f).1 = db1 := by
  unfold step
  cases h : f db with
  | error e => exact Or.inl rfl
  | ok d => exact Or.inr ⟨d, rfl, rfl⟩

theorem sql_add_exact {a b : Int} (ha : is_int64 a) (hb : is_int64 b)
    (hab : is_int64 (a + b)) : sql_add a b = a + b := by
  unfold sql_add
  rw [if_pos ⟨ha, hb, hab⟩]

theorem sql_sub_exact {a b : Int} (ha : is_int64 a) (hb : is_int64 b)
    (hab : is_int64 (a - b)) : sql_sub a b = a - b := by
  unfold sql_sub
  rw [if_pos ⟨ha, hb, hab⟩]

/-- Adding a positive quantity to a non-negative INTEGER stock is exact as
long as the sum fits 64 bits. -/
theorem sql_add_stock {st qty : Int} (h0 : 0 ≤ st) (hq : 0 < qty)
    (hb : st + qty ≤ INT64_MAX) : sql_add st qty = st + qty := by
  apply sql_add_exact <;> unfold is_int64 INT64_MIN <;> unfold INT64_MAX at hb ⊢ <;> omega

/-- Taking a quantity out of an INTEGER stock that holds at least as much is
exact. -/
theorem sql_sub_stock {st qty : Int} (hq : 0 < qty) (hle : qty ≤ st)
    (hb : st ≤ INT64_MAX) : sql_sub st qty = st - qty := by
  apply sql_sub_exact <;> unfold is_int64 INT64_MIN <;> unfold INT64_MAX at hb ⊢ <;> omega

theorem update_stock_ok {ps ps1 : List Product} {pid : Int} {f : Int → Int}
    (h : update_stock ps pid f = .ok ps1) :
    (∀ p ∈ ps, p.id = pid → 0 ≤ f p.stock) ∧
    ps1 = ps.map (fun p => if p.id = pid then { p with stock := f p.stock } else p) := by
  unfold update_stock at h
  split at h
  · rename_i hc
    simp only [List.all_eq_true, decide_eq_true_eq] at hc
    injection h with h
    exact ⟨hc, h.symm⟩
  · cases h

theorem update_stock_of_check {ps : List Product} {pid : Int} {f : Int → Int}
    (hc : ∀ p ∈ ps, p.id = pid → 0 ≤ f p.stock) :
    update_stock ps pid f =
      .ok (ps.map (fun p => if p.id = pid then { p with stock := f p.stock } else p)) := by
  unfold update_stock
  rw [if_pos]
  simpa only [List.all_eq_true, decide_eq_true_eq] using hc

theorem find_id_none {ps : List Product} {pid : Int} (h : ∀ p ∈ ps, p.id ≠ pid) :
    ps.find? (fun p => p.id = pid) = none := by
  simpa using h

theorem find_id_some {ps : List Product} {pid : Int} {p : Product}
    (h : ps.find? (fun p => p.id = pid) = some p) : p ∈ ps ∧ p.id = pid := by
  refine ⟨List.mem_of_find?_eq_some h, ?_⟩
  simpa using List.find?_some h

theorem find_id_of_exists {ps : List Product} {pid : Int} (h : ∃ p ∈ ps, p.id = pid) :
    ∃ p0, ps.find? (fun p => p.id = pid) = some p0 := by
  cases hf : ps.find? (fun p => p.id = pid) with
  | some p0 => exact ⟨p0, rfl⟩
  | none =>
    exfalso
    obtain ⟨p, hp, hid⟩ := h
    have := List.find?_eq_none.mp hf p hp
    simp [hid] at this

theorem any_id_iff {ps : List Product} {pid : Int} :
    ps.any (fun p => p.id = pid) = true ↔ ∃ p ∈ ps, p.id = pid := by
  simp

theorem any_sale_iff {ss : List Sale} {sid : Int} :
    ss.any (fun s => s.id = sid) = true ↔ ∃ s ∈ ss, s.id = sid := by
  simp

/-- The row a successful `insert_sale_item` adds, and what its checks found. -/
theorem insert_sale_item_ok {agg : List ℚ → ℚ} {db db1 : Db} {sid pid qty : Int} {price : ℚ}
    (h : insert_sale_item agg sid pid qty price db = .ok db1) :
    0 < qty ∧ 0 ≤ price ∧ (∃ s ∈ db.sales, s.id = sid) ∧ (∃ p ∈ db.products, p.id = pid) ∧
    (∀ p, db.products.find? (fun p => p.id = pid) = some p → qty ≤ p.stock) ∧
    (∀ p ∈ db.products, p.id = pid → 0 ≤ sql_sub p.stock qty) ∧
    db1 = { db with
      sale_items := db.sale_items ++
        [{ id := next_rowid db.seq_sale_items (db.sale_items.map (fun r => r.id)),
           sale_id := sid, product_id := pid, qty := qty, price := price }],
      seq_sale_items := next_rowid db.seq_sale_items (db.sale_items.map (fun r => r.id)),
      products := db.products.map
        (fun p => if p.id = pid then { p with stock := sql_sub p.stock qty } else p),
      sales := db.sales.map (fun s => if s.id = sid then
        { s with total := sum_qty_price agg (db.sale_items ++
          [{ id := next_rowid db.seq_sale_items (db.sale_items.map (fun r => r.id)),
             sale_id := sid, product_id := pid, qty := qty, price := price }]) sid } else s) } := by
  unfold insert_sale_item at h
  simp only at h
  split at h
  · cases h
  · rename_i hbefore
    split at h
    · cases h
    · split at h
      · cases h
      · rename_i hq hp
        simp only [not_not] at hq hp
        unfold trg_sale_items_after_insert at h
        simp only at h
        cases hu : update_stock db.products pid (fun st => sql_sub st qty) with
        | error e => rw [hu] at h; cases h
        | ok ps =>
          rw [hu] at h
          simp only [trg_sale_items_total_after_insert, update_total] at h
          obtain ⟨hc, hps⟩ := update_stock_ok hu
          split at h
          · rename_i hfk
            injection h with h
            rw [any_sale_iff, any_id_iff] at hfk
            obtain ⟨⟨s, hs, hsid⟩, ⟨p, hp1, hpid⟩⟩ := hfk
            subst hps
            refine ⟨hq, hp, ?_, ?_, ?_, hc, h.symm⟩
            · simp only [List.mem_map] at hs
              obtain ⟨s0, hs0, rfl⟩ := hs
              refine ⟨s0, hs0, ?_⟩
              split at hsid <;> simpa using hsid
            · simp only [List.mem_map] at hp1
              obtain ⟨p0, hp0, rfl⟩ := hp1
              refine ⟨p0, hp0, ?_⟩
              split at hpid <;> simpa using hpid
            · intro p0 hf
              unfold trg_sale_items_before_insert at hbefore
              simp only [hf] at hbefore
              by_contra hlt
              rw [if_pos (not_le.mp hlt)] at hbefore
              cases hbefore
          · cases h

/-- When its checks pass, `insert_sale_item` succeeds with this database. -/
theorem insert_sale_item_of {agg : List ℚ → ℚ} {db : Db} {sid pid qty : Int} {price : ℚ}
    (hq : 0 < qty) (hp : 0 ≤ price) (hs : ∃ s ∈ db.sales, s.id = sid)
    (hpe : ∃ p ∈ db.products, p.id = pid)
    (hle : ∀ p ∈ db.products, p.id = pid → qty ≤ p.stock)
    (hc : ∀ p ∈ db.products, p.id = pid → 0 ≤ sql_sub p.stock qty) :
    insert_sale_item agg sid pid qty price db = .ok { db with
      sale_items := db.sale_items ++
        [{ id := next_rowid db.seq_sale_items (db.sale_items.map (fun r => r.id)),
           sale_id := sid, product_id := pid, qty := qty, price := price }],
      seq_sale_items := next_rowid db.seq_sale_items (db.sale_items.map (fun r => r.id)),
      products := db.products.map
        (fun p => if p.id = pid then { p with stock := sql_sub p.stock qty } else p),
      sales := db.sales.map (fun s => if s.id = sid then
        { s with total := sum_qty_price agg (db.sale_items ++
          [{ id := next_rowid db.seq_sale_items (db.sale_items.map (fun r => r.id)),
             sale_id := sid, product_id := pid, qty := qty, price := price }]) sid } else s) } := by
  have hbefore : ∀ new : SaleItem, new.product_id = pid → new.qty = qty →
      trg_sale_items_before_insert db new = .ok () := by
    intro new h1 h2
    unfold trg_sale_items_before_insert
    rw [h1, h2]
    cases hf : db.products.find? (fun p => p.id = pid) with
    | none => rfl
    | some p =>
      obtain ⟨hm, hid⟩ := find_id_some hf
      have := hle p hm hid
      simp only
      rw [if_neg (by omega)]
  have hu : update_stock db.products pid (fun st => sql_sub st qty) = .ok (db.products.map
      (fun p => if p.id = pid then { p with stock := sql_sub p.stock qty } else p)) :=
    update_stock_of_check hc
  have hb := hbefore
    ⟨next_rowid db.seq_sale_items (db.sale_items.map (fun r => r.id)), sid, pid, qty, price⟩
    rfl rfl
  have hfk : (db.sales.map (fun s => if s.id = sid then
        { s with total := sum_qty_price agg (db.sale_items ++
          [{ id := next_rowid db.seq_sale_items (db.sale_items.map (fun r => r.id)),
             sale_id := sid, product_id := pid, qty := qty, price := price }]) sid }
        else s)).any (fun s => s.id = sid) = true ∧
      (db.products.map (fun p => if p.id = pid then { p with stock := sql_sub p.stock qty }
        else p)).any (fun p => p.id = pid) = true := by
    rw [any_sale_iff, any_id_iff]
    constructor
    · obtain ⟨s, hs1, hs2⟩ := hs
      refine ⟨_, List.mem_map_of_mem _ hs1, ?_⟩
      split <;> simpa using hs2
    · obtain ⟨p, hp1, hp2⟩ := hpe
      refine ⟨_, List.mem_map_of_mem _ hp1, ?_⟩
      split <;> simpa using hp2
  simp only [insert_sale_item, hb, trg_sale_items_after_insert, hu,
    trg_sale_items_total_after_insert, update_total]
  rw [if_neg (by simpa using hq), if_neg (by simpa using hp), if_pos hfk]

theorem sum_qty_price_eq (agg : List ℚ → ℚ) (items : List SaleItem) (sid : Int) :
    sum_qty_price agg items sid =
      sqlite_total agg (items.filter (fun i => i.sale_id = sid)) := by
  unfold sum_qty_price sqlite_total sql_sum
  cases h : items.filter (fun i => decide (i.sale_id = sid)) with
  | nil => simp
  | cons x xs => simp

theorem insert_purchase_ok {db db1 : Db} {pid qty : Int} {cost : ℚ}
    (h : insert_purchase pid qty cost db = .ok db1) :
    0 < qty ∧ 0 ≤ cost ∧ (∃ p ∈ db.products, p.id = pid) ∧
    (∀ p ∈ db.products, p.id = pid → 0 ≤ sql_add p.stock qty) ∧
    db1 = { db with
      purchases := db.purchases ++
        [{ id := next_rowid db.seq_purchases (db.purchases.map (fun r => r.id)),
           product_id := pid, qty := qty, cost_price := cost }],
      seq_purchases := next_rowid db.seq_purchases (db.purchases.map (fun r => r.id)),
      products := db.products.map
        (fun p => if p.id = pid then { p with stock := sql_add p.stock qty } else p) } := by
  unfold insert_purchase at h
  simp only at h
  split at h
  · cases h
  · split at h
    · cases h
    · rename_i hq hp
      simp only [not_not] at hq hp
      unfold trg_purchase_after_insert at h
      simp only at h
      cases hu : update_stock db.products pid (fun st => sql_add st qty) with
      | error e => rw [hu] at h; cases h
      | ok ps =>
        rw [hu] at h
        simp only at h
        obtain ⟨hc, hps⟩ := update_stock_ok hu
        split at h
        · rename_i hfk
          injection h with h
          rw [any_id_iff] at hfk
          obtain ⟨p, hp1, hpid⟩ := hfk
          subst hps
          refine ⟨hq, hp, ?_, hc, h.symm⟩
          simp only [List.mem_map] at hp1
          obtain ⟨p0, hp0, rfl⟩ := hp1
          refine ⟨p0, hp0, ?_⟩
          split at hpid <;> simpa using hpid
        · cases h

theorem insert_purchase_of {db : Db} {pid qty : Int} {cost : ℚ}
    (hq : 0 < qty) (hp : 0 ≤ cost) (hpe : ∃ p ∈ db.products, p.id = pid)
    (hc : ∀ p ∈ db.products, p.id = pid → 0 ≤ sql_add p.stock qty) :
    insert_purchase pid qty cost db = .ok { db with
      purchases := db.purchases ++
        [{ id := next_rowid db.seq_purchases (db.purchases.map (fun r => r.id)),
           product_id := pid, qty := qty, cost_price := cost }],
      seq_purchases := next_rowid db.seq_purchases (db.purchases.map (fun r => r.id)),
      products := db.products.map
        (fun p => if p.id = pid then { p with stock := sql_add p.stock qty } else p) } := by
  have hu := @update_stock_of_check db.products pid (fun st => sql_add st qty) hc
  have hfk : (db.products.map (fun p => if p.id = pid then
        { p with stock := sql_add p.stock qty } else p)).any (fun p => p.id = pid) = true := by
    rw [any_id_iff]
    obtain ⟨p, hp1, hp2⟩ := hpe
    refine ⟨_, List.mem_map_of_mem _ hp1, ?_⟩
    split <;> simpa using hp2
  simp only [insert_purchase, trg_purchase_after_insert, hu]
  rw [if_neg (by simpa using hq), if_neg (by simpa using hp), if_pos hfk]

theorem find_map_stock (ps : List Product) (pid q : Int) (f : Int → Int) :
    (ps.map (fun p => if p.id = pid then { p with stock := f p.stock } else p)).find?
        (fun p => p.id = q) =
      (ps.find? (fun p => p.id = q)).map
        (fun p => if p.id = pid then { p with stock := f p.stock } else p) := by
  induction ps with
  | nil => rfl
  | cons a as ih =>
    simp only [List.map_cons, List.find?_cons]
    have hid : (if a.id = pid then { a with stock := f a.stock } else a).id = a.id := by
      split <;> rfl
    rw [hid]
    by_cases h : a.id = q
    · simp [h]
    · simp [h, ih]

theorem find_of_mem_nodup {ps : List Product} (hn : (ps.map (fun p => p.id)).Nodup)
    {p : Product} (hp : p ∈ ps) : ps.find? (fun x => x.id = p.id) = some p := by
  induction ps with
  | nil => cases hp
  | cons a as ih =>
    rw [List.map_cons, List.nodup_cons] at hn
    rw [List.find?_cons]
    rcases List.mem_cons.mp hp with rfl | hm
    · simp
    · have hne : a.id ≠ p.id := by
        intro he
        exact hn.1 (he ▸ List.mem_map_of_mem (fun p => p.id) hm)
      simp [hne, ih hn.2 hm]

theorem stock_of_map_stock (db : Db) (ps : List Product) (pid q : Int) (f : Int → Int)
    (h : ps = db.products.map
      (fun p => if p.id = pid then { p with stock := f p.stock } else p))
    (db1 : Db) (h1 : db1.products = ps) :
    stock_of db1 q = (stock_of db q).map (fun st => if q = pid then f st else st) := by
  unfold stock_of
  rw [h1, h, find_map_stock]
  cases hf : db.products.find? (fun p => p.id = q) with
  | none => rfl
  | some p =>
    have := (find_id_some hf).2
    subst this
    simp only [Option.map_some']
    split <;> rfl

theorem unstocked_map_stock (ps : List Product) (pid : Int) (f : Int → Int) :
    (ps.map (fun p => if p.id = pid then { p with stock := f p.stock } else p)).map
      Product.unstocked = ps.map Product.unstocked := by
  rw [List.map_map]
  apply List.map_congr_left
  intro p _
  simp only [Function.comp]
  split <;> rfl

theorem le_max_rowid {ids : List Int} {i : Int} (h : i ∈ ids) : i ≤ max_rowid ids := by
  induction ids with
  | nil => cases h
  | cons a as ih =>
    unfold max_rowid
    rcases List.mem_cons.mp h with rfl | hm
    · exact le_max_left _ _
    · exact le_trans (ih hm) (le_max_right _ _)

theorem next_rowid_fresh (seq : Int) {ids : List Int} {i : Int} (h : i ∈ ids) :
    i ≠ next_rowid seq ids := by
  have h1 := le_max_rowid h
  have h2 : max_rowid ids ≤ max seq (max_rowid ids) := le_max_right _ _
  unfold next_rowid
  omega

theorem eq_of_mem_nodup {ps : List Product} (hn : (ps.map (fun p => p.id)).Nodup)
    {p x : Product} (hp : p ∈ ps) (hx : x ∈ ps) (h : x.id = p.id) : x = p := by
  have h1 := find_of_mem_nodup hn hp
  have h2 := find_of_mem_nodup hn hx
  rw [h, h1] at h2
  exact (Option.some.inj h2).symm

theorem store_p_valid : store_p.Valid :=
  ⟨by decide, by decide, by decide, by decide, by decide⟩

theorem store_a_valid : store_a.Valid :=
  ⟨by decide, by decide, by decide, by decide, by decide⟩

theorem store_b_valid : store_b.Valid :=
  ⟨by decide, by decide, by decide, by decide, by decide⟩

theorem store_big_valid : store_big.Valid :=
  ⟨by decide, by decide, by decide, by decide, by decide⟩

theorem store_real_valid : store_real.Valid :=
  ⟨by decide, by decide, by decide, by decide, by decide⟩

/-! ## ReceiveStock -/

/-- C5, amended: in a valid state, `receive_stock` for an existing product
`p`, a quantity `> 0` and a cost price `>= 0`, where `p.stock + qty` still
fits a 64-bit INTEGER, succeeds; it appends one purchase row
`(p, qty, costPrice)` with a fresh id, the stock of `p` becomes
`p.stock + qty`, the stock of every other product is as before, no column of
a product other than `stock` changes, and sales and sale items (hence every
sale total) are untouched. -/
theorem receive_stock_success (db : Db) (hv : db.Valid) (p : Product) (hp : p ∈ db.products)
    (qty : Int) (costPrice : ℚ) (hq : 0 < qty) (hc : 0 ≤ costPrice)
    (hfit : p.stock + qty ≤ INT64_MAX) :
    (receive_stock db p.id qty costPrice).2 = none ∧
    (∃ r : Purchase, (∀ x ∈ db.purchases, x.id ≠ r.id) ∧
      r.product_id = p.id ∧ r.qty = qty ∧ r.cost_price = costPrice ∧
      (receive_stock db p.id qty costPrice).1.purchases = db.purchases ++ [r]) ∧
    stock_of (receive_stock db p.id qty costPrice).1 p.id = some (p.stock + qty) ∧
    (∀ q, q ≠ p.id → stock_of (receive_stock db p.id qty costPrice).1 q = stock_of db q) ∧
    (receive_stock db p.id qty costPrice).1.products.map Product.unstocked =
      db.products.map Product.unstocked ∧
    (receive_stock db p.id qty costPrice).1.sales = db.sales ∧
    (receive_stock db p.id qty costPrice).1.sale_items = db.sale_items := by
  have hexact : sql_add p.stock qty = p.stock + qty :=
    sql_add_stock (hv.products_check p hp).2 hq hfit
  have hok := @insert_purchase_of db p.id qty costPrice hq hc ⟨p, hp, rfl⟩
    (fun x hx hid => by
      rw [eq_of_mem_nodup hv.products_pk hp hx hid, hexact]
      have := (hv.products_check p hp).2
      omega)
  have hr : ∀ d, insert_purchase p.id qty costPrice db = .ok d →
      receive_stock db p.id qty costPrice = (d, none) := by
    intro d hd
    unfold receive_stock step
    rw [hd]
  rw [hr _ hok]
  refine ⟨rfl, ⟨⟨_, p.id, qty, costPrice⟩, ?_, rfl, rfl, rfl, rfl⟩, ?_, ?_, ?_, rfl, rfl⟩
  · intro x hx
    exact next_rowid_fresh _ (List.mem_map_of_mem (fun r => r.id) hx)
  · rw [stock_of_map_stock db _ p.id p.id (fun st => sql_add st qty) rfl _ rfl]
    unfold stock_of
    rw [find_of_mem_nodup hv.products_pk hp]
    simp [hexact]
  · intro q hq
    rw [stock_of_map_stock db _ p.id q (fun st => sql_add st qty) rfl _ rfl]
    cases stock_of db q <;> simp [hq]
  · exact unstocked_map_stock db.products p.id (fun st => sql_add st qty)

/-- Scenario A: product P with stock 0, `ReceiveStock(P, 5, 6.00)` gives
stock 5. -/
theorem receive_stock_success_witness :
    store_p.Valid ∧ (0 : Int) + 5 ≤ INT64_MAX ∧
    (receive_stock store_p 1 5 6).2 = none ∧
    stock_of (receive_stock store_p 1 5 6).1 1 = some 5 :=
  have h := receive_stock_success store_p store_p_valid
    { id := 1, name := "P", supplier_id := none, unit_price := 10, stock := 0 }
    (by decide) 5 6 (by decide) (by decide) (by decide)
  ⟨store_p_valid, by decide, h.1, h.2.2.1⟩

/-- C5 as stated fails where the sum leaves the 64-bit range: in the valid
state `store_big`, P holds 2^63 - 2 units; `ReceiveStock(P, 5, 1.00)` is
accepted, and the stock becomes the REAL 2^63 (9.223372036854776e18), not
`p.stock + 5`. -/
theorem receive_stock_overflow_counterexample :
    store_big.Valid ∧
    stock_of store_big 1 = some 9223372036854775806 ∧
    (receive_stock store_big 1 5 1).2 = none ∧
    stock_of (receive_stock store_big 1 5 1).1 1 = some 9223372036854775808 ∧
    ¬ (stock_of (receive_stock store_big 1 5 1).1 1 = some (9223372036854775806 + 5)) :=
  ⟨store_big_valid, by decide, by decide!, by decide!, by decide!⟩

/-- C8: `receive_stock` fails whenever the product id names no product, or
`qty <= 0`, or `costPrice < 0`, and then the database is exactly as before: no
purchase is recorded and no stock changes. -/
theorem receive_stock_rejected (db : Db) (productId qty : Int) (costPrice : ℚ)
    (h : (∀ p ∈ db.products, p.id ≠ productId) ∨ qty ≤ 0 ∨ costPrice < 0) :
    (∃ e, (receive_stock db productId qty costPrice).2 = some e) ∧
    (receive_stock db productId qty costPrice).1 = db := by
  unfold receive_stock step
  cases hi : insert_purchase productId qty costPrice db with
  | error e => exact ⟨⟨e, rfl⟩, rfl⟩
  | ok db1 =>
    exfalso
    obtain ⟨hq, hc, ⟨p, hp, hpid⟩, _⟩ := insert_purchase_ok hi
    rcases h with h | h | h
    · exact h p hp hpid
    · omega
    · exact absurd hc (not_le.mpr h)

/-- Three rejected deliveries on the store of scenario B: unknown product,
quantity 0, negative cost price. -/
theorem receive_stock_rejected_witness :
    ((∀ p ∈ store_b.products, p.id ≠ 7) ∨ (5 : Int) ≤ 0 ∨ (6 : ℚ) < 0) ∧
    (receive_stock store_b 7 5 6).2 = some .foreign_key ∧
    (receive_stock store_b 7 5 6).1 = store_b ∧
    (receive_stock store_b 1 0 6).1 = store_b ∧
    (receive_stock store_b 1 5 (-1)).1 = store_b :=
  ⟨Or.inl (by decide), by decide,
    (receive_stock_rejected store_b 7 5 6 (Or.inl (by decide))).2,
    (receive_stock_rejected store_b 1 0 6 (Or.inr (Or.inl (by decide)))).2,
    (receive_stock_rejected store_b 1 5 (-1) (Or.inr (Or.inr (by decide)))).2⟩

/-! ## AddItem -/

theorem add_item_of_ok {agg : List ℚ → ℚ} {db db1 : Db} {sid pid qty : Int}
    {override pr : ℚ}
    (hpr : (if override ≤ 0 then
        (db.products.find? (fun p => p.id = pid)).map (fun p => p.unit_price)
      else some override) = some pr)
    (h : insert_sale_item agg sid pid qty pr db = .ok db1) :
    add_item agg db sid pid qty override = (db1, .added) := by
  unfold add_item
  simp only [hpr, step, h]

theorem add_item_of_error {agg : List ℚ → ℚ} {db : Db} {sid pid qty : Int}
    {override pr : ℚ} {e : SqlError}
    (hpr : (if override ≤ 0 then
        (db.products.find? (fun p => p.id = pid)).map (fun p => p.unit_price)
      else some override) = some pr)
    (h : insert_sale_item agg sid pid qty pr db = .error e) :
    add_item agg db sid pid qty override = (db, .failed e) := by
  unfold add_item
  simp only [hpr, step, h]

theorem add_item_of_none {agg : List ℚ → ℚ} {db : Db} {sid pid qty : Int} {override : ℚ}
    (hpr : (if override ≤ 0 then
        (db.products.find? (fun p => p.id = pid)).map (fun p => p.unit_price)
      else some override) = none) :
    add_item agg db sid pid qty override = (db, .product_not_found) := by
  unfold add_item
  simp only [hpr]

/-- The three ways a round of the item loop can end. -/
theorem add_item_cases (agg : List ℚ → ℚ) (db : Db) (sid pid qty : Int) (override : ℚ) :
    add_item agg db sid pid qty override = (db, .product_not_found) ∨
    (∃ e, add_item agg db sid pid qty override = (db, .failed e)) ∨
    (∃ pr db1, insert_sale_item agg sid pid qty pr db = .ok db1 ∧
      add_item agg db sid pid qty override = (db1, .added)) := by
  cases hpr : (if override ≤ 0 then
      (db.products.find? (fun p => p.id = pid)).map (fun p => p.unit_price)
    else some override) with
  | none => exact Or.inl (add_item_of_none hpr)
  | some pr =>
    cases h : insert_sale_item agg sid pid qty pr db with
    | error e => exact Or.inr (Or.inl ⟨e, add_item_of_error hpr h⟩)
    | ok db1 => exact Or.inr (Or.inr ⟨pr, db1, h, add_item_of_ok hpr h⟩)

/-- C3: in a valid state, `add_item` for an existing product `p` and a
quantity above `p.stock` fails with the insufficient-stock error of the
BEFORE INSERT trigger, whatever the sale id and the price typed in, and the
database is exactly as before: no item inserted, every stock and every total
unchanged, earlier items still there. -/
theorem add_item_insufficient_stock (agg : List ℚ → ℚ) (db : Db) (hv : db.Valid)
    (p : Product) (hp : p ∈ db.products) (saleId qty : Int) (override : ℚ)
    (hq : p.stock < qty) :
    add_item agg db saleId p.id qty override = (db, .failed insufficient_stock) := by
  have hf := find_of_mem_nodup hv.products_pk hp
  have hpr : ∃ pr, (if override ≤ 0 then
      (db.products.find? (fun x => x.id = p.id)).map (fun x => x.unit_price)
    else some override) = some pr := by
    rw [hf]
    split
    · exact ⟨_, rfl⟩
    · exact ⟨_, rfl⟩
  obtain ⟨pr, hpr⟩ := hpr
  apply add_item_of_error hpr
  unfold insert_sale_item trg_sale_items_before_insert
  simp only [hf, if_pos hq]

/-- Scenario C: with stock 2 and total 30.00, `AddItem(sale, P, 10)` fails
with insufficient stock; stock remains 2 and the total remains 30.00. -/
theorem add_item_insufficient_stock_witness :
    store_b.Valid ∧ stock_of store_b 1 = some 2 ∧ authoritative_total store_b 1 = some 30 ∧
    add_item naive_sum store_b 1 1 10 0 = (store_b, .failed insufficient_stock) :=
  ⟨store_b_valid, by decide, by decide,
    add_item_insufficient_stock naive_sum store_b store_b_valid
      { id := 1, name := "P", supplier_id := none, unit_price := 10, stock := 2 }
      (by decide) 1 10 0 (by decide)⟩

/-- C7: `add_item` with a product id that names no product fails, whatever
the sale id, the quantity and the price typed in (with a price `<= 0` the
unit-price lookup reports "Product not found."; with a price `> 0` the INSERT
is aborted by a CHECK or by the foreign key on `product_id`), and the
database is exactly as before. -/
theorem add_item_unknown_product (agg : List ℚ → ℚ) (db : Db)
    (saleId productId qty : Int) (override : ℚ)
    (hno : ∀ p ∈ db.products, p.id ≠ productId) :
    (add_item agg db saleId productId qty override).2 ≠ .added ∧
    (add_item agg db saleId productId qty override).1 = db ∧
    (override ≤ 0 →
      (add_item agg db saleId productId qty override).2 = .product_not_found) ∧
    (0 < override → ∃ e, (add_item agg db saleId productId qty override).2 = .failed e) := by
  have h3 : override ≤ 0 →
      add_item agg db saleId productId qty override = (db, .product_not_found) := by
    intro ho
    apply add_item_of_none
    rw [if_pos ho, find_id_none hno]
    rfl
  have h4 : 0 < override →
      ∃ e, add_item agg db saleId productId qty override = (db, .failed e) := by
    intro ho
    have hpr : (if override ≤ 0 then
        (db.products.find? (fun p => p.id = productId)).map (fun p => p.unit_price)
      else some override) = some override := if_neg (not_le.mpr ho)
    cases hi : insert_sale_item agg saleId productId qty override db with
    | error e => exact ⟨e, add_item_of_error hpr hi⟩
    | ok db1 =>
      exfalso
      obtain ⟨_, _, _, ⟨p, hp, hpid⟩, _⟩ := insert_sale_item_ok hi
      exact hno p hp hpid
  by_cases ho : override ≤ 0
  · rw [h3 ho]
    exact ⟨by simp, rfl, fun _ => rfl, fun h => absurd ho (not_le.mpr h)⟩
  · obtain ⟨e, he⟩ := h4 (not_le.mp ho)
    rw [he]
    exact ⟨by simp, rfl, fun h => absurd h ho, fun _ => ⟨e, rfl⟩⟩

/-- On the store of scenario B, product 7 does not exist: without a price the
round reports "Product not found.", with price 5 the INSERT fails on the
foreign key; the store is unchanged both times. -/
theorem add_item_unknown_product_witness :
    (∀ p ∈ store_b.products, p.id ≠ 7) ∧
    add_item naive_sum store_b 1 7 1 0 = (store_b, .product_not_found) ∧
    add_item naive_sum store_b 1 7 1 5 = (store_b, .failed .foreign_key) ∧
    (add_item naive_sum store_b 1 7 1 5).1 = store_b :=
  ⟨by decide, by decide, by decide!,
    (add_item_unknown_product naive_sum store_b 1 7 1 5 (by decide)).2.1⟩

theorem find_map_total (ss : List Sale) (sid q : Int) (t : ℚ) :
    (ss.map (fun s => if s.id = sid then { s with total := t } else s)).find?
        (fun s => s.id = q) =
      (ss.find? (fun s => s.id = q)).map
        (fun s => if s.id = sid then { s with total := t } else s) := by
  induction ss with
  | nil => rfl
  | cons a as ih =>
    simp only [List.map_cons, List.find?_cons]
    have hid : (if a.id = sid then { a with total := t } else a).id = a.id := by
      split <;> rfl
    rw [hid]
    by_cases h : a.id = q
    · simp [h]
    · simp [h, ih]

theorem find_sale_of_mem {ss : List Sale} {s : Sale} (hs : s ∈ ss) :
    ∃ s0, ss.find? (fun x => x.id = s.id) = some s0 ∧ s0 ∈ ss ∧ s0.id = s.id := by
  cases hf : ss.find? (fun x => x.id = s.id) with
  | none =>
    exfalso
    have := List.find?_eq_none.mp hf s hs
    simp at this
  | some s0 =>
    refine ⟨s0, rfl, List.mem_of_find?_eq_some hf, ?_⟩
    simpa using List.find?_some hf

/-- C4, amended: in a valid state, `add_item` for an existing sale `s`, an
existing product `p` whose stock is a 64-bit INTEGER, and a quantity with
`0 < qty <= p.stock` succeeds; exactly one item `(s, p, qty, price)` with a
fresh id is appended, where `price` is the price typed in when that is `> 0`
and `p.unit_price` otherwise; the stock of `p` becomes `p.stock - qty`; the
stock of every other product is as before; and the stored total of `s` is
SQLite's sum over the items of `s`, the new one included. -/
theorem add_item_success (agg : List ℚ → ℚ) (db : Db) (hv : db.Valid)
    (s : Sale) (hs : s ∈ db.sales) (p : Product) (hp : p ∈ db.products)
    (qty : Int) (override : ℚ) (hq : 0 < qty) (hq2 : qty ≤ p.stock)
    (hint : p.stock ≤ INT64_MAX) :
    (add_item agg db s.id p.id qty override).2 = .added ∧
    (∃ it : SaleItem, (∀ x ∈ db.sale_items, x.id ≠ it.id) ∧
      it.sale_id = s.id ∧ it.product_id = p.id ∧ it.qty = qty ∧
      it.price = (if 0 < override then override else p.unit_price) ∧
      (add_item agg db s.id p.id qty override).1.sale_items = db.sale_items ++ [it] ∧
      authoritative_total (add_item agg db s.id p.id qty override).1 s.id =
        some (agg ((items_of db s.id ++ [it]).map (fun i => real_mul i.qty i.price)))) ∧
    stock_of (add_item agg db s.id p.id qty override).1 p.id = some (p.stock - qty) ∧
    (∀ q, q ≠ p.id →
      stock_of (add_item agg db s.id p.id qty override).1 q = stock_of db q) := by
  have hf := find_of_mem_nodup hv.products_pk hp
  have hexact : sql_sub p.stock qty = p.stock - qty := sql_sub_stock hq hq2 hint
  have hpr : (if override ≤ 0 then
      (db.products.find? (fun x => x.id = p.id)).map (fun x => x.unit_price)
    else some override) = some (if 0 < override then override else p.unit_price) := by
    rw [hf]
    by_cases ho : override ≤ 0
    · rw [if_pos ho, if_neg (not_lt.mpr ho)]
      rfl
    · rw [if_neg ho, if_pos (not_le.mp ho)]
  have hprice : 0 ≤ (if 0 < override then override else p.unit_price) := by
    split
    · rename_i ho
      exact le_of_lt ho
    · exact (hv.products_check p hp).1
  have hi := @insert_sale_item_of agg db s.id p.id qty _ hq hprice
    ⟨s, hs, rfl⟩ ⟨p, hp, rfl⟩
    (fun x hx hid => by rw [eq_of_mem_nodup hv.products_pk hp hx hid]; exact hq2)
    (fun x hx hid => by
      rw [eq_of_mem_nodup hv.products_pk hp hx hid, hexact]
      omega)
  rw [add_item_of_ok hpr hi]
  refine ⟨rfl, ⟨⟨_, s.id, p.id, qty, _⟩, ?_, rfl, rfl, rfl, rfl, rfl, ?_⟩, ?_, ?_⟩
  · intro x hx
    exact next_rowid_fresh _ (List.mem_map_of_mem (fun r => r.id) hx)
  · unfold authoritative_total
    simp only [find_map_total]
    obtain ⟨s0, hs0, _, hid⟩ := find_sale_of_mem hs
    rw [hs0]
    simp only [Option.map_some', hid, if_true, sum_qty_price_eq, items_of]
    rw [List.filter_append]
    simp [sqlite_total]
    cases List.filter (fun i => decide (i.sale_id = s.id)) db.sale_items <;> rfl
  · rw [stock_of_map_stock db _ p.id p.id (fun st => sql_sub st qty) rfl _ rfl]
    unfold stock_of
    rw [hf]
    simp [hexact]
  · intro q hq
    rw [stock_of_map_stock db _ p.id q (fun st => sql_sub st qty) rfl _ rfl]
    cases stock_of db q <;> simp [hq]

/-- Scenario B: unit price 10.00, stock 5, `AddItem(sale, P, 3)` with no
override gives an item at price 10.00, stock 2 and sale total 30.00. -/
theorem add_item_success_witness :
    store_a.Valid ∧ stock_of store_a 1 = some 5 ∧ (5 : Int) ≤ INT64_MAX ∧
    (add_item naive_sum store_a 1 1 3 0).2 = .added ∧
    (add_item naive_sum store_a 1 1 3 0).1.sale_items =
      [{ id := 1, sale_id := 1, product_id := 1, qty := 3, price := 10 }] ∧
    stock_of (add_item naive_sum store_a 1 1 3 0).1 1 = some 2 ∧
    authoritative_total (add_item naive_sum store_a 1 1 3 0).1 1 = some 30 :=
  have h := add_item_success naive_sum store_a store_a_valid
    { id := 1, customer := some "Alice", total := 0 } (by decide)
    { id := 1, name := "P", supplier_id := none, unit_price := 10, stock := 5 } (by decide)
    3 0 (by decide) (by decide) (by decide)
  ⟨store_a_valid, by decide, by decide, h.1, by decide!, h.2.2.1, by decide!⟩

/-- C4 as stated fails where the stock is no 64-bit INTEGER: in the valid
state `store_real` the stock of P is the REAL 2^63 left by a delivery that
overflowed; `AddItem(sale, P, 1)` is accepted, and the stock is still 2^63
afterwards, not one less. -/
theorem add_item_real_stock_counterexample :
    store_real.Valid ∧
    stock_of store_real 1 = some 9223372036854775808 ∧
    (add_item naive_sum store_real 1 1 1 0).2 = .added ∧
    stock_of (add_item naive_sum store_real 1 1 1 0).1 1 = some 9223372036854775808 ∧
    ¬ (stock_of (add_item naive_sum store_real 1 1 1 0).1 1 =
        some (9223372036854775808 - 1)) :=
  ⟨store_real_valid, by decide, by decide!, by decide!, by decide!⟩

/-! ## RemoveItem -/

theorem map_total_restore (ss : List Sale) (sid : Int) (t t0 : ℚ)
    (h : ∀ s ∈ ss, s.id = sid → s.total = t0) :
    (ss.map (fun s => if s.id = sid then { s with total := t } else s)).map
      (fun s => if s.id = sid then { s with total := t0 } else s) = ss := by
  rw [List.map_map]
  conv_rhs => rw [← List.map_id ss]
  apply List.map_congr_left
  intro s hs
  simp only [Function.comp, id]
  by_cases hid : s.id = sid
  · simp only [hid, if_true]
    have := h s hs hid
    cases s
    simp_all
  · simp only [hid, if_false]

/-- Putting back what was taken out of an INTEGER stock restores it. -/
theorem map_stock_cancel (ps : List Product) (pid qty : Int)
    (h : ∀ p ∈ ps, p.id = pid → sql_add (sql_sub p.stock qty) qty = p.stock) :
    (ps.map (fun p => if p.id = pid then { p with stock := sql_sub p.stock qty } else p)).map
      (fun p => if p.id = pid then { p with stock := sql_add p.stock qty } else p) = ps := by
  rw [List.map_map]
  conv_rhs => rw [← List.map_id ps]
  apply List.map_congr_left
  intro p hp
  simp only [Function.comp, id]
  by_cases hid : p.id = pid
  · simp only [hid, if_true]
    have := h p hp hid
    cases p
    simp_all
  · simp only [hid, if_false]

/-- C6, amended: when total consistency holds (each stored total is SQLite's
sum over the items of its sale), the stock of the product is a 64-bit INTEGER
`>= 0`, and `add_item` has succeeded, removing the item it inserted (the one
item of the new store that was not in the old one) succeeds and brings
`products`, `sales` and `sale_items` back to what they were: every stock and
every total has its value from before the `add_item`. -/
theorem add_then_remove_restores (agg : List ℚ → ℚ) (db : Db)
    (hc : db.TotalsConsistent agg) (saleId productId qty : Int) (override : ℚ)
    (hint : ∀ p ∈ db.products, p.id = productId → 0 ≤ p.stock ∧ p.stock ≤ INT64_MAX)
    (hadd : (add_item agg db saleId productId qty override).2 = .added)
    (it : SaleItem)
    (hit : it ∈ (add_item agg db saleId productId qty override).1.sale_items)
    (hnew : it ∉ db.sale_items) :
    (remove_item agg (add_item agg db saleId productId qty override).1
      it.sale_id it.id).2 = .removed ∧
    (remove_item agg (add_item agg db saleId productId qty override).1
      it.sale_id it.id).1.products = db.products ∧
    (remove_item agg (add_item agg db saleId productId qty override).1
      it.sale_id it.id).1.sales = db.sales ∧
    (remove_item agg (add_item agg db saleId productId qty override).1
      it.sale_id it.id).1.sale_items = db.sale_items := by
  rcases add_item_cases agg db saleId productId qty override with
    h | ⟨e, h⟩ | ⟨pr, db1, hi, h⟩
  · rw [h] at hadd; cases hadd
  · rw [h] at hadd; cases hadd
  · rw [h] at hit ⊢
    simp only at hit ⊢
    obtain ⟨hq, _, _, hex, hfirst, hchk, hdb1⟩ := insert_sale_item_ok hi
    subst hdb1
    simp only [List.mem_append, List.mem_singleton] at hit
    rcases hit with hit | hit
    · exact absurd hit hnew
    · subst hit
      have hqmax : qty ≤ INT64_MAX := by
        obtain ⟨p0, hf0⟩ := find_id_of_exists hex
        obtain ⟨hm0, hid0⟩ := find_id_some hf0
        have h1 := hfirst p0 hf0
        have h2 := (hint p0 hm0 hid0).2
        omega
      have hback : ∀ p ∈ db.products, p.id = productId →
          sql_add (sql_sub p.stock qty) qty = p.stock := by
        intro p hp hid
        obtain ⟨h0, hmax⟩ := hint p hp hid
        have hge := hchk p hp hid
        have hsub : sql_sub p.stock qty = p.stock - qty := by
          apply sql_sub_exact <;> unfold is_int64 INT64_MIN <;>
            unfold INT64_MAX at hmax hqmax ⊢ <;> omega
        rw [hsub] at hge ⊢
        have : sql_add (p.stock - qty) qty = p.stock - qty + qty := by
          apply sql_add_exact <;> unfold is_int64 INT64_MIN <;>
            unfold INT64_MAX at hmax hqmax ⊢ <;> omega
        rw [this]
        omega
      have hfresh : ∀ x ∈ db.sale_items, ¬ ((fun i : SaleItem =>
          decide (i.id = next_rowid db.seq_sale_items (db.sale_items.map (fun r => r.id)) ∧
            i.sale_id = saleId)) x = true) := by
        intro x hx
        have := next_rowid_fresh db.seq_sale_items
          (List.mem_map_of_mem (fun r : SaleItem => r.id) hx)
        simp [this]
      have hfind : (db.sale_items ++
          [(⟨next_rowid db.seq_sale_items (db.sale_items.map (fun r => r.id)),
            saleId, productId, qty, pr⟩ : SaleItem)]).find? (fun i =>
          decide (i.id = next_rowid db.seq_sale_items (db.sale_items.map (fun r => r.id)) ∧
            i.sale_id = saleId)) =
          some ⟨next_rowid db.seq_sale_items (db.sale_items.map (fun r => r.id)),
            saleId, productId, qty, pr⟩ := by
        rw [List.find?_append, List.find?_eq_none.mpr hfresh]
        simp
      have herase : (db.sale_items ++
          [(⟨next_rowid db.seq_sale_items (db.sale_items.map (fun r => r.id)),
            saleId, productId, qty, pr⟩ : SaleItem)]).eraseP (fun i =>
          decide (i.id = next_rowid db.seq_sale_items (db.sale_items.map (fun r => r.id)) ∧
            i.sale_id = saleId)) = db.sale_items := by
        rw [List.eraseP_append_right _ hfresh]
        simp
      have hu := @update_stock_of_check (db.products.map
          (fun p => if p.id = productId then { p with stock := sql_sub p.stock qty } else p))
          productId (fun st => sql_add st qty) (by
        intro x hx hid
        simp only [List.mem_map] at hx
        obtain ⟨p0, hp0, rfl⟩ := hx
        have hid0 : p0.id = productId := by
          split at hid <;> simpa using hid
        simp only [hid0, if_true]
        rw [hback p0 hp0 hid0]
        exact (hint p0 hp0 hid0).1)
      rw [map_stock_cancel _ _ _ hback] at hu
      have htot : ∀ s ∈ db.sales, s.id = saleId →
          s.total = sum_qty_price agg db.sale_items saleId := by
        intro s hs hid
        rw [hc s hs, sum_qty_price_eq, items_of, hid]
      simp only [remove_item, step, delete_sale_item, hfind, herase,
        trg_sale_items_after_delete, hu, trg_sale_items_total_after_delete, update_total]
      exact ⟨trivial, trivial, map_total_restore _ _ _ _ htot, trivial⟩

theorem store_a_consistent : store_a.TotalsConsistent naive_sum := by
  unfold Db.TotalsConsistent
  decide

theorem store_real_consistent : store_real.TotalsConsistent naive_sum := by
  unfold Db.TotalsConsistent
  decide

/-- Scenario D: removing the 3-unit item of scenario B returns the stock of P
from 2 to 5 and the total of the sale from 30.00 to 0.00. -/
theorem add_then_remove_restores_witness :
    store_a.TotalsConsistent naive_sum ∧
    (∀ p ∈ store_a.products, p.id = 1 → 0 ≤ p.stock ∧ p.stock ≤ INT64_MAX) ∧
    (add_item naive_sum store_a 1 1 3 0).2 = .added ∧
    stock_of (add_item naive_sum store_a 1 1 3 0).1 1 = some 2 ∧
    authoritative_total (add_item naive_sum store_a 1 1 3 0).1 1 = some 30 ∧
    (remove_item naive_sum (add_item naive_sum store_a 1 1 3 0).1 1 1).2 = .removed ∧
    (remove_item naive_sum (add_item naive_sum store_a 1 1 3 0).1 1 1).1.products =
      store_a.products ∧
    (remove_item naive_sum (add_item naive_sum store_a 1 1 3 0).1 1 1).1.sales =
      store_a.sales ∧
    stock_of store_a 1 = some 5 ∧ authoritative_total store_a 1 = some 0 :=
  have h := add_then_remove_restores naive_sum store_a store_a_consistent 1 1 3 0
    (by decide) (by decide!)
    { id := 1, sale_id := 1, product_id := 1, qty := 3, price := 10 }
    (by decide!) (by decide)
  ⟨store_a_consistent, by decide, by decide!, by decide!, by decide!, h.1, h.2.1, h.2.2.1,
    by decide, by decide⟩

/-- C6 as stated fails where the stock is no 64-bit INTEGER: in `store_real`
total consistency holds and the stock of P is the REAL 2^63;
`AddItem(sale, P, 600)` succeeds and leaves the INTEGER 2^63 - 1024, and
removing that item gives 2^63 - 424, not the stock from before. -/
theorem add_then_remove_real_stock_counterexample :
    store_real.TotalsConsistent naive_sum ∧
    stock_of store_real 1 = some 9223372036854775808 ∧
    (add_item naive_sum store_real 1 1 600 0).2 = .added ∧
    (add_item naive_sum store_real 1 1 600 0).1.sale_items =
      [{ id := 1, sale_id := 1, product_id := 1, qty := 600, price := 10 }] ∧
    stock_of (add_item naive_sum store_real 1 1 600 0).1 1 = some 9223372036854774784 ∧
    (remove_item naive_sum (add_item naive_sum store_real 1 1 600 0).1 1 1).2 = .removed ∧
    stock_of (remove_item naive_sum (add_item naive_sum store_real 1 1 600 0).1 1 1).1 1 =
      some 9223372036854775384 ∧
    ¬ ((remove_item naive_sum (add_item naive_sum store_real 1 1 600 0).1 1 1).1.products =
        store_real.products) :=
  ⟨store_real_consistent, by decide, by decide!, by decide!, by decide!, by decide!,
    by decide!, by decide!⟩

/-! ## The remaining statements -/

theorem insert_supplier_ok {db db1 : Db} {name : String} {phone email : Option String}
    (h : insert_supplier name phone email db = .ok db1) :
    db1.products = db.products ∧ db1.sales = db.sales ∧ db1.sale_items = db.sale_items := by
  unfold insert_supplier at h
  split at h
  · cases h
  · injection h with h
    subst h
    exact ⟨rfl, rfl, rfl⟩

theorem insert_product_ok {db db1 : Db} {name : String} {sup : Option Int} {price : ℚ}
    (h : insert_product name sup price db = .ok db1) :
    0 ≤ price ∧
    db1.products = db.products ++
      [{ id := next_rowid db.seq_products (db.products.map (fun p => p.id)), name := name,
         supplier_id := sup, unit_price := price, stock := 0 }] ∧
    db1.sales = db.sales ∧ db1.sale_items = db.sale_items := by
  unfold insert_product at h
  split at h
  · cases h
  · rename_i hp
    split at h
    · cases h
    · split at h
      · cases h
      · injection h with h
        subst h
        exact ⟨not_not.mp hp, rfl, rfl, rfl⟩

theorem insert_sale_ok {db db1 : Db} {customer : Option String}
    (h : insert_sale customer db = .ok db1) :
    db1.products = db.products ∧
    db1.sales = db.sales ++
      [{ id := next_rowid db.seq_sales (db.sales.map (fun s => s.id)), customer := customer,
         total := 0 }] ∧
    db1.sale_items = db.sale_items := by
  unfold insert_sale at h
  injection h with h
  subst h
  exact ⟨rfl, rfl, rfl⟩

theorem update_unit_price_ok {db db1 : Db} {pid : Int} {price : ℚ}
    (h : update_unit_price pid price db = .ok db1) :
    ((∃ p ∈ db.products, p.id = pid) → 0 ≤ price) ∧
    db1.products = db.products.map
      (fun p => if p.id = pid then { p with unit_price := price } else p) ∧
    db1.sales = db.sales ∧ db1.sale_items = db.sale_items := by
  unfold update_unit_price at h
  split at h
  · cases h
  · rename_i hc
    injection h with h
    subst h
    refine ⟨fun he => ?_, rfl, rfl, rfl⟩
    rw [any_id_iff] at hc
    by_contra hn
    exact hc ⟨he, hn⟩

theorem delete_sale_item_ok {agg : List ℚ → ℚ} {db db1 : Db} {sid iid : Int}
    (h : delete_sale_item agg sid iid db = .ok db1) :
    db1 = db ∨ ∃ old, old ∈ db.sale_items ∧ old.sale_id = sid ∧
      (∀ p ∈ db.products, p.id = old.product_id → 0 ≤ sql_add p.stock old.qty) ∧
      db1.products = db.products.map
        (fun p => if p.id = old.product_id then
          { p with stock := sql_add p.stock old.qty } else p) ∧
      db1.sale_items = db.sale_items.eraseP (fun i => i.id = iid ∧ i.sale_id = sid) ∧
      db1.sales = db.sales.map (fun s => if s.id = sid then
        { s with
          total := sum_qty_price agg
            (db.sale_items.eraseP (fun i => i.id = iid ∧ i.sale_id = sid)) sid }
        else s) := by
  unfold delete_sale_item at h
  split at h
  · injection h with h
    exact Or.inl h.symm
  · rename_i old hf
    right
    have hm := List.mem_of_find?_eq_some hf
    have hp := List.find?_some hf
    simp only [decide_eq_true_eq] at hp
    unfold trg_sale_items_after_delete at h
    simp only at h
    cases hu : update_stock db.products old.product_id (fun st => sql_add st old.qty) with
    | error e => rw [hu] at h; cases h
    | ok ps =>
      rw [hu] at h
      simp only [trg_sale_items_total_after_delete, update_total] at h
      obtain ⟨hc, hps⟩ := update_stock_ok hu
      injection h with h
      subst h
      subst hps
      refine ⟨old, hm, hp.2, hc, rfl, rfl, ?_⟩
      simp only [hp.2]

theorem remove_item_fst (agg : List ℚ → ℚ) (db : Db) (sid iid : Int) :
    (remove_item agg db sid iid).1 = (step db (delete_sale_item agg sid iid)).1 := by
  unfold remove_item
  cases hf : db.sale_items.find? (fun i => decide (i.id = iid ∧ i.sale_id = sid)) with
  | none => simp only [step, delete_sale_item, hf]
  | some old =>
    simp only
    split <;> simp_all

theorem create_sale_fst (db : Db) (customer : String) :
    (create_sale db customer).1 = (step db (insert_sale (text_or_null customer))).1 := rfl

theorem update_price_fst (db : Db) (pid : Int) (price : ℚ) :
    (update_price db pid price).1 = (step db (update_unit_price pid price)).1 := by
  unfold update_price
  split <;> simp_all

/-- A property kept by every statement that succeeds holds after every
sequence of operations. -/
theorem run_invariant (agg : List ℚ → ℚ) (P : Db → Prop)
    (h1 : ∀ db db1 n ph e, insert_supplier n ph e db = .ok db1 → P db → P db1)
    (h2 : ∀ db db1 n sp pr, insert_product n sp pr db = .ok db1 → P db → P db1)
    (h3 : ∀ db db1 p q c, insert_purchase p q c db = .ok db1 → P db → P db1)
    (h4 : ∀ db db1 c, insert_sale c db = .ok db1 → P db → P db1)
    (h5 : ∀ db db1 s p q pr, insert_sale_item agg s p q pr db = .ok db1 → P db → P db1)
    (h6 : ∀ db db1 s i, delete_sale_item agg s i db = .ok db1 → P db → P db1)
    (h7 : ∀ db db1 p pr, update_unit_price p pr db = .ok db1 → P db → P db1) :
    ∀ (ops : List Op) (db : Db), P db → P (run agg db ops) := by
  have hstep : ∀ (db : Db) (f : Db → Except SqlError Db),
      (∀ db1, f db = .ok db1 → P db → P db1) → P db → P (step db f).1 := by
    intro db f hf hP
    rcases step_fst db f with h | ⟨db1, h, he⟩
    · rw [h]; exact hP
    · rw [he]; exact hf db1 h hP
  have hop : ∀ (op : Op) (db : Db), P db → P (Op.apply agg db op) := by
    intro op db hP
    cases op with
    | add_supplier n p e => exact hstep db _ (fun db1 h => h1 db db1 _ _ _ h) hP
    | add_product n s pr => exact hstep db _ (fun db1 h => h2 db db1 _ _ _ h) hP
    | receive_stock p q c => exact hstep db _ (fun db1 h => h3 db db1 _ _ _ h) hP
    | create_sale c =>
      show P (create_sale db c).1
      rw [create_sale_fst]
      exact hstep db _ (fun db1 h => h4 db db1 _ h) hP
    | add_item s p q pr =>
      show P (add_item agg db s p q pr).1
      rcases add_item_cases agg db s p q pr with h | ⟨e, h⟩ | ⟨pr1, db1, hi, h⟩
      · rw [h]; exact hP
      · rw [h]; exact hP
      · rw [h]; exact h5 db db1 _ _ _ _ hi hP
    | remove_item s i =>
      show P (remove_item agg db s i).1
      rw [remove_item_fst]
      exact hstep db _ (fun db1 h => h6 db db1 _ _ h) hP
    | update_price p pr =>
      show P (update_price db p pr).1
      rw [update_price_fst]
      exact hstep db _ (fun db1 h => h7 db db1 _ _ h) hP
  intro ops
  induction ops with
  | nil => intro db hP; exact hP
  | cons op ops ih =>
    intro db hP
    exact ih _ (hop op db hP)

/-! ## Stock non-negativity -/

theorem nonneg_map_stock (f : Int → Int) {ps : List Product} {pid : Int}
    (h : ∀ p ∈ ps, 0 ≤ p.stock) (hc : ∀ p ∈ ps, p.id = pid → 0 ≤ f p.stock) :
    ∀ p ∈ ps.map (fun p => if p.id = pid then { p with stock := f p.stock } else p),
      0 ≤ p.stock := by
  intro p hp
  simp only [List.mem_map] at hp
  obtain ⟨p0, hp0, rfl⟩ := hp
  by_cases hid : p0.id = pid
  · simp only [hid, if_true]
    exact hc p0 hp0 hid
  · simp only [hid, if_false]
    exact h p0 hp0

/-- C1: from any state in which every product has `stock >= 0` (the empty
store is one), every product has `stock >= 0` after any sequence of
`add_supplier`, `add_product`, `receive_stock`, `create_sale`, `add_item`,
`remove_item` and `update_price` with arbitrary arguments, whether each call
succeeds or is rejected. -/
theorem stock_nonneg_invariant (agg : List ℚ → ℚ) (db : Db)
    (h : ∀ p ∈ db.products, 0 ≤ p.stock) (ops : List Op) :
    ∀ p ∈ (run agg db ops).products, 0 ≤ p.stock := by
  refine run_invariant agg (fun d => ∀ p ∈ d.products, 0 ≤ p.stock)
    ?_ ?_ ?_ ?_ ?_ ?_ ?_ ops db h
  · intro db db1 n ph e hs hP
    rw [(insert_supplier_ok hs).1]
    exact hP
  · intro db db1 n sp pr hs hP
    rw [(insert_product_ok hs).2.1]
    intro p hp
    rcases List.mem_append.mp hp with hp | hp
    · exact hP p hp
    · rw [List.mem_singleton.mp hp]
  · intro db db1 p q c hs hP
    obtain ⟨_, _, _, hc, rfl⟩ := insert_purchase_ok hs
    exact nonneg_map_stock (fun st => sql_add st q) hP hc
  · intro db db1 c hs hP
    rw [(insert_sale_ok hs).1]
    exact hP
  · intro db db1 s p q pr hs hP
    obtain ⟨_, _, _, _, _, hc, rfl⟩ := insert_sale_item_ok hs
    exact nonneg_map_stock (fun st => sql_sub st q) hP hc
  · intro db db1 s i hs hP
    rcases delete_sale_item_ok hs with rfl | ⟨old, _, _, hc, hps, _⟩
    · exact hP
    · rw [hps]
      exact nonneg_map_stock (fun st => sql_add st old.qty) hP hc
  · intro db db1 p pr hs hP
    rw [(update_unit_price_ok hs).2.1]
    intro x hx
    simp only [List.mem_map] at hx
    obtain ⟨x0, hx0, rfl⟩ := hx
    have := hP x0 hx0
    split <;> exact this

/-- From the store of scenario B, a run that mixes rejected calls (an
oversized item, a negative delivery, a negative price) with accepted ones
keeps every stock `>= 0`; so does a run from the empty store. -/
theorem stock_nonneg_invariant_witness :
    (∀ p ∈ store_b.products, 0 ≤ p.stock) ∧
    (∀ p ∈ (run naive_sum store_b [.add_item 1 1 10 0, .receive_stock 1 (-4) 1, .remove_item 1 1,
        .update_price 1 (-3), .add_product "Q" "" 2, .create_sale "",
        .add_item 2 1 5 0, .add_item 2 1 1 0]).products, 0 ≤ p.stock) ∧
    (∀ p ∈ (run naive_sum Db.empty [.add_product "P" "" 10, .add_item 1 1 1 0,
        .receive_stock 1 5 6, .create_sale "Alice", .add_item 1 1 6 0]).products,
      0 ≤ p.stock) :=
  ⟨by decide, stock_nonneg_invariant naive_sum store_b (by decide) _,
    stock_nonneg_invariant naive_sum Db.empty (by decide) _⟩

/-! ## The schema constraints hold in every reachable state -/

theorem map_ids_eq (ps : List Product) (f : Product → Product) (hf : ∀ p, (f p).id = p.id) :
    (ps.map f).map (fun p => p.id) = ps.map (fun p => p.id) := by
  rw [List.map_map]
  apply List.map_congr_left
  intro p _
  exact hf p

theorem fk_product_map {is : List SaleItem} {ps : List Product} (f : Product → Product)
    (hf : ∀ p, (f p).id = p.id) (h : ∀ i ∈ is, ∃ p ∈ ps, p.id = i.product_id) :
    ∀ i ∈ is, ∃ p ∈ ps.map f, p.id = i.product_id := by
  intro i hi
  obtain ⟨p, hp, hid⟩ := h i hi
  exact ⟨f p, List.mem_map_of_mem f hp, by rw [hf, hid]⟩

theorem fk_sale_map {is : List SaleItem} {ss : List Sale} (f : Sale → Sale)
    (hf : ∀ s, (f s).id = s.id) (h : ∀ i ∈ is, ∃ s ∈ ss, s.id = i.sale_id) :
    ∀ i ∈ is, ∃ s ∈ ss.map f, s.id = i.sale_id := by
  intro i hi
  obtain ⟨s, hs, hid⟩ := h i hi
  exact ⟨f s, List.mem_map_of_mem f hs, by rw [hf, hid]⟩

theorem stock_map_id (pid : Int) (f : Int → Int) (p : Product) :
    (if p.id = pid then { p with stock := f p.stock } else p).id = p.id := by
  split <;> rfl

theorem total_map_id (sid : Int) (t : ℚ) (s : Sale) :
    (if s.id = sid then { s with total := t } else s).id = s.id := by
  split <;> rfl

theorem price_map_id (pid : Int) (t : ℚ) (p : Product) :
    (if p.id = pid then { p with unit_price := t } else p).id = p.id := by
  split <;> rfl

theorem check_map_stock (f : Int → Int) {ps : List Product} {pid : Int}
    (h : ∀ p ∈ ps, 0 ≤ p.unit_price ∧ 0 ≤ p.stock)
    (hc : ∀ p ∈ ps, p.id = pid → 0 ≤ f p.stock) :
    ∀ p ∈ ps.map (fun p => if p.id = pid then { p with stock := f p.stock } else p),
      0 ≤ p.unit_price ∧ 0 ≤ p.stock := by
  intro p hp
  refine ⟨?_, nonneg_map_stock f (fun x hx => (h x hx).2) hc p hp⟩
  simp only [List.mem_map] at hp
  obtain ⟨p0, hp0, rfl⟩ := hp
  have := (h p0 hp0).1
  split <;> exact this

theorem valid_of_eq {db db1 : Db} (hp : db1.products = db.products)
    (hs : db1.sales = db.sales) (hi : db1.sale_items = db.sale_items) (hv : db.Valid) :
    db1.Valid :=
  ⟨by rw [hp]; exact hv.products_pk, by rw [hp]; exact hv.products_check,
    by rw [hi]; exact hv.sale_items_check,
    by rw [hi, hp]; exact hv.sale_items_fk_product,
    by rw [hi, hs]; exact hv.sale_items_fk_sale⟩

theorem valid_insert_product {db db1 : Db} {name : String} {sup : Option Int} {price : ℚ}
    (h : insert_product name sup price db = .ok db1) (hv : db.Valid) : db1.Valid := by
  obtain ⟨hpr, hps, hss, his⟩ := insert_product_ok h
  refine ⟨?_, ?_, ?_, ?_, ?_⟩
  · rw [hps, List.map_append, List.nodup_append]
    refine ⟨hv.products_pk, List.nodup_singleton _, ?_⟩
    intro a ha hb
    rw [List.map_singleton, List.mem_singleton] at hb
    exact next_rowid_fresh _ ha hb
  · rw [hps]
    intro p hp
    rcases List.mem_append.mp hp with hp | hp
    · exact hv.products_check p hp
    · rw [List.mem_singleton.mp hp]
      exact ⟨hpr, le_refl _⟩
  · rw [his]; exact hv.sale_items_check
  · rw [his, hps]
    intro i hi
    obtain ⟨p, hp, hid⟩ := hv.sale_items_fk_product i hi
    exact ⟨p, List.mem_append_left _ hp, hid⟩
  · rw [his, hss]; exact hv.sale_items_fk_sale

theorem valid_insert_purchase {db db1 : Db} {pid qty : Int} {cost : ℚ}
    (h : insert_purchase pid qty cost db = .ok db1) (hv : db.Valid) : db1.Valid := by
  obtain ⟨_, _, _, hc, rfl⟩ := insert_purchase_ok h
  refine ⟨?_, ?_, hv.sale_items_check, ?_, hv.sale_items_fk_sale⟩
  · show ((db.products.map _).map _).Nodup
    rw [map_ids_eq _ _ (stock_map_id pid (fun st => sql_add st qty))]
    exact hv.products_pk
  · exact check_map_stock (fun st => sql_add st qty) hv.products_check hc
  · exact fk_product_map _ (stock_map_id pid (fun st => sql_add st qty))
      hv.sale_items_fk_product

theorem valid_insert_sale {db db1 : Db} {customer : Option String}
    (h : insert_sale customer db = .ok db1) (hv : db.Valid) : db1.Valid := by
  obtain ⟨hps, hss, his⟩ := insert_sale_ok h
  refine ⟨by rw [hps]; exact hv.products_pk, by rw [hps]; exact hv.products_check,
    by rw [his]; exact hv.sale_items_check,
    by rw [his, hps]; exact hv.sale_items_fk_product, ?_⟩
  rw [his, hss]
  intro i hi
  obtain ⟨s, hs, hid⟩ := hv.sale_items_fk_sale i hi
  exact ⟨s, List.mem_append_left _ hs, hid⟩

theorem valid_insert_sale_item {agg : List ℚ → ℚ} {db db1 : Db} {sid pid qty : Int}
    {price : ℚ} (h : insert_sale_item agg sid pid qty price db = .ok db1) (hv : db.Valid) :
    db1.Valid := by
  obtain ⟨hq, hpr, ⟨s, hs, hsid⟩, ⟨p, hp, hpid⟩, _, hc, rfl⟩ := insert_sale_item_ok h
  refine ⟨?_, ?_, ?_, ?_, ?_⟩
  · show ((db.products.map _).map _).Nodup
    rw [map_ids_eq _ _ (stock_map_id pid (fun st => sql_sub st qty))]
    exact hv.products_pk
  · exact check_map_stock (fun st => sql_sub st qty) hv.products_check hc
  · intro i hi
    rcases List.mem_append.mp hi with hi | hi
    · exact hv.sale_items_check i hi
    · rw [List.mem_singleton.mp hi]
      exact ⟨hq, hpr⟩
  · intro i hi
    rcases List.mem_append.mp hi with hi | hi
    · exact fk_product_map _ (stock_map_id pid (fun st => sql_sub st qty))
        hv.sale_items_fk_product i hi
    · rw [List.mem_singleton.mp hi]
      exact ⟨_, List.mem_map_of_mem _ hp, by
        rw [stock_map_id pid (fun st => sql_sub st qty)]; exact hpid⟩
  · intro i hi
    rcases List.mem_append.mp hi with hi | hi
    · exact fk_sale_map _ (total_map_id sid _) hv.sale_items_fk_sale i hi
    · rw [List.mem_singleton.mp hi]
      exact ⟨_, List.mem_map_of_mem _ hs, by rw [total_map_id]; exact hsid⟩

theorem valid_delete_sale_item {agg : List ℚ → ℚ} {db db1 : Db} {sid iid : Int}
    (h : delete_sale_item agg sid iid db = .ok db1) (hv : db.Valid) : db1.Valid := by
  rcases delete_sale_item_ok h with rfl | ⟨old, _, _, hc, hps, his, hss⟩
  · exact hv
  · have hsub : ∀ i ∈ db1.sale_items, i ∈ db.sale_items := by
      rw [his]
      intro i hi
      exact List.mem_of_mem_eraseP hi
    refine ⟨?_, ?_, ?_, ?_, ?_⟩
    · rw [hps, map_ids_eq _ _ (stock_map_id old.product_id (fun st => sql_add st old.qty))]
      exact hv.products_pk
    · rw [hps]
      exact check_map_stock (fun st => sql_add st old.qty) hv.products_check hc
    · intro i hi
      exact hv.sale_items_check i (hsub i hi)
    · rw [hps]
      intro i hi
      exact fk_product_map _ (stock_map_id old.product_id (fun st => sql_add st old.qty))
        hv.sale_items_fk_product i (hsub i hi)
    · rw [hss]
      intro i hi
      exact fk_sale_map _ (total_map_id sid _) hv.sale_items_fk_sale i (hsub i hi)

theorem valid_update_unit_price {db db1 : Db} {pid : Int} {price : ℚ}
    (h : update_unit_price pid price db = .ok db1) (hv : db.Valid) : db1.Valid := by
  obtain ⟨hpr, hps, hss, his⟩ := update_unit_price_ok h
  refine ⟨?_, ?_, by rw [his]; exact hv.sale_items_check, ?_,
    by rw [his, hss]; exact hv.sale_items_fk_sale⟩
  · rw [hps, map_ids_eq _ _ (price_map_id pid price)]
    exact hv.products_pk
  · rw [hps]
    intro x hx
    simp only [List.mem_map] at hx
    obtain ⟨x0, hx0, rfl⟩ := hx
    have h0 := hv.products_check x0 hx0
    by_cases hid : x0.id = pid
    · simp only [hid, if_true]
      exact ⟨hpr ⟨x0, hx0, hid⟩, h0.2⟩
    · simp only [hid, if_false]
      exact h0
  · rw [his, hps]
    exact fk_product_map _ (price_map_id pid price) hv.sale_items_fk_product

/-! ## Total consistency holds in every reachable state -/

theorem consistent_of_eq {agg : List ℚ → ℚ} {db db1 : Db} (hs : db1.sales = db.sales)
    (hi : db1.sale_items = db.sale_items) (hc : db.TotalsConsistent agg) :
    db1.TotalsConsistent agg := by
  unfold Db.TotalsConsistent items_of at hc ⊢
  rw [hs, hi]
  exact hc

theorem filter_eraseP_of_disjoint {α : Type} (p q : α → Bool) (l : List α)
    (h : ∀ x, p x = true → q x = false) : (l.eraseP p).filter q = l.filter q := by
  induction l with
  | nil => rfl
  | cons a as ih =>
    by_cases hp : p a = true
    · rw [List.eraseP_cons_of_pos hp, List.filter_cons, h a hp]
      simp
    · rw [List.eraseP_cons_of_neg hp, List.filter_cons, List.filter_cons, ih]

theorem consistent_insert_sale {agg : List ℚ → ℚ} {db db1 : Db}
    {customer : Option String} (h : insert_sale customer db = .ok db1) (hv : db.Valid)
    (hc : db.TotalsConsistent agg) : db1.TotalsConsistent agg := by
  obtain ⟨_, hss, his⟩ := insert_sale_ok h
  unfold Db.TotalsConsistent items_of at hc ⊢
  rw [hss, his]
  intro s hs
  rcases List.mem_append.mp hs with hs | hs
  · exact hc s hs
  · rw [List.mem_singleton.mp hs]
    have hnone : db.sale_items.filter (fun i => decide (i.sale_id =
        next_rowid db.seq_sales (db.sales.map (fun s => s.id)))) = [] := by
      rw [List.filter_eq_nil_iff]
      intro i hi
      obtain ⟨s0, hs0, hid⟩ := hv.sale_items_fk_sale i hi
      have := next_rowid_fresh db.seq_sales (List.mem_map_of_mem (fun s : Sale => s.id) hs0)
      simp only [decide_eq_true_eq]
      rw [← hid]
      exact this
    simp only [hnone]
    rfl

theorem consistent_insert_sale_item {agg : List ℚ → ℚ} {db db1 : Db} {sid pid qty : Int}
    {price : ℚ} (h : insert_sale_item agg sid pid qty price db = .ok db1)
    (hc : db.TotalsConsistent agg) : db1.TotalsConsistent agg := by
  obtain ⟨_, _, _, _, _, _, rfl⟩ := insert_sale_item_ok h
  unfold Db.TotalsConsistent items_of at hc ⊢
  intro s hs
  simp only [List.mem_map] at hs
  obtain ⟨s0, hs0, rfl⟩ := hs
  by_cases hid : s0.id = sid
  · simp only [hid, if_true, sum_qty_price_eq]
  · simp only [hid, if_false, List.filter_append]
    rw [hc s0 hs0]
    have : ([(⟨next_rowid db.seq_sale_items (db.sale_items.map (fun r => r.id)),
        sid, pid, qty, price⟩ : SaleItem)].filter (fun i => decide (i.sale_id = s0.id))) = [] := by
      rw [List.filter_eq_nil_iff]
      intro i hi
      rw [List.mem_singleton.mp hi]
      simpa using fun h => hid h.symm
    rw [this, List.append_nil]

theorem consistent_delete_sale_item {agg : List ℚ → ℚ} {db db1 : Db} {sid iid : Int}
    (h : delete_sale_item agg sid iid db = .ok db1) (hc : db.TotalsConsistent agg) :
    db1.TotalsConsistent agg := by
  rcases delete_sale_item_ok h with rfl | ⟨old, _, _, _, _, his, hss⟩
  · exact hc
  · unfold Db.TotalsConsistent items_of at hc ⊢
    rw [his, hss]
    intro s hs
    simp only [List.mem_map] at hs
    obtain ⟨s0, hs0, rfl⟩ := hs
    by_cases hid : s0.id = sid
    · simp only [hid, if_true, sum_qty_price_eq]
    · simp only [hid, if_false]
      rw [hc s0 hs0, filter_eraseP_of_disjoint]
      intro x hx
      simp only [decide_eq_true_eq] at hx
      simp only [decide_eq_false_iff_not]
      rw [hx.2]
      exact fun h => hid h.symm

/-- Every state reached from the empty store satisfies the schema constraints
and total consistency. -/
theorem reachable_valid_consistent (agg : List ℚ → ℚ) (ops : List Op) :
    (run agg Db.empty ops).Valid ∧ (run agg Db.empty ops).TotalsConsistent agg := by
  refine run_invariant agg (fun d => d.Valid ∧ d.TotalsConsistent agg)
    ?_ ?_ ?_ ?_ ?_ ?_ ?_ ops
    Db.empty ⟨⟨by decide, by decide, by decide, by decide, by decide⟩, ?_⟩
  · intro db db1 n ph e hs hP
    obtain ⟨h1, h2, h3⟩ := insert_supplier_ok hs
    exact ⟨valid_of_eq h1 h2 h3 hP.1, consistent_of_eq h2 h3 hP.2⟩
  · intro db db1 n sp pr hs hP
    obtain ⟨_, _, h2, h3⟩ := insert_product_ok hs
    exact ⟨valid_insert_product hs hP.1, consistent_of_eq h2 h3 hP.2⟩
  · intro db db1 p q c hs hP
    refine ⟨valid_insert_purchase hs hP.1, ?_⟩
    obtain ⟨_, _, _, _, rfl⟩ := insert_purchase_ok hs
    exact consistent_of_eq rfl rfl hP.2
  · intro db db1 c hs hP
    exact ⟨valid_insert_sale hs hP.1, consistent_insert_sale hs hP.1 hP.2⟩
  · intro db db1 s p q pr hs hP
    exact ⟨valid_insert_sale_item hs hP.1, consistent_insert_sale_item hs hP.2⟩
  · intro db db1 s i hs hP
    exact ⟨valid_delete_sale_item hs hP.1, consistent_delete_sale_item hs hP.2⟩
  · intro db db1 p pr hs hP
    obtain ⟨_, _, h2, h3⟩ := update_unit_price_ok hs
    exact ⟨valid_update_unit_price hs hP.1, consistent_of_eq h2 h3 hP.2⟩
  · intro s hs
    cases hs

theorem run_snoc (agg : List ℚ → ℚ) (db : Db) (ops : List Op) (op : Op) :
    run agg db (ops ++ [op]) = Op.apply agg (run agg db ops) op := by
  unfold run
  rw [List.foldl_append]
  rfl

/-- C2, amended: in every state reached from the empty store, right after
`add_item` or `remove_item` returns (with any arguments, accepted or
rejected), the stored total of every sale is what SQLite computes for
`SUM(qty * price)` over the items that now belong to it: 0 for no items,
else the library's sum of the products, each rounded to a double. This holds
whatever summation the library uses. -/
theorem total_consistency (agg : List ℚ → ℚ) (ops : List Op)
    (saleId productId qty itemId : Int) (price : ℚ) :
    (∀ s ∈ (add_item agg (run agg Db.empty ops) saleId productId qty price).1.sales,
      s.total = sqlite_total agg
        (items_of (add_item agg (run agg Db.empty ops) saleId productId qty price).1 s.id)) ∧
    (∀ s ∈ (remove_item agg (run agg Db.empty ops) saleId itemId).1.sales,
      s.total = sqlite_total agg
        (items_of (remove_item agg (run agg Db.empty ops) saleId itemId).1 s.id)) := by
  constructor
  · have h := (reachable_valid_consistent agg
      (ops ++ [.add_item saleId productId qty price])).2
    rw [run_snoc] at h
    exact h
  · have h := (reachable_valid_consistent agg (ops ++ [.remove_item saleId itemId])).2
    rw [run_snoc] at h
    exact h

/-- C2 as stated fails, because totals are doubles: from the empty store,
create P at price 0.1 (the double nearest to it), receive 5, open a sale and
add 3 units. The one item makes the stored total the double product
0.30000000000000004, which is not the exact `3 * price`; a sum over a single
row is that row in every version of the library. -/
theorem total_not_exact_counterexample :
    (add_item naive_sum (run naive_sum Db.empty [.add_product "P" "" one_tenth,
      .receive_stock 1 5 1, .create_sale "Alice"]) 1 1 3 0).2 = .added ∧
    (add_item naive_sum (run naive_sum Db.empty [.add_product "P" "" one_tenth,
      .receive_stock 1 5 1, .create_sale "Alice"]) 1 1 3 0).1.sales =
      [{ id := 1, customer := some "Alice",
         total := 1351079888211149 / 4503599627370496 }] ∧
    items_sum (items_of (add_item naive_sum (run naive_sum Db.empty
      [.add_product "P" "" one_tenth, .receive_stock 1 5 1, .create_sale "Alice"])
      1 1 3 0).1 1) = 3 * one_tenth ∧
    ¬ (∀ s ∈ (add_item naive_sum (run naive_sum Db.empty [.add_product "P" "" one_tenth,
        .receive_stock 1 5 1, .create_sale "Alice"]) 1 1 3 0).1.sales,
      s.total = items_sum (items_of (add_item naive_sum (run naive_sum Db.empty
        [.add_product "P" "" one_tenth, .receive_stock 1 5 1, .create_sale "Alice"])
        1 1 3 0).1 s.id)) :=
  ⟨by decide!, by decide!, by decide!, by decide!⟩

end Inventory
